import Mathlib

/-!
Verification development for the `user-agent` repository (TypeScript).

The definitions below are a shallow embedding of the repository's core:
`src/core/context.ts` (context manager, score calculator, session
orchestrator `runSession`), `src/core/step.ts` (`executeStep`),
`src/utils/cost.ts` (cost tracker) and the report classifier section of
`src/llm/claude-cli.ts` (`classifyNoteSentiment`, `detectCategory`,
`detectSeverity`, `generateIssueId`, `buildJsonReport`, ...).

Modelling conventions:
* JS strings are Lean `String`s; all characters involved are in the BMP, so
  a JS UTF-16 code unit corresponds to one Lean `Char` and JS `length`,
  `slice`, `includes` agree with the character-level operations used here.
* JS numbers are modelled by `Nat`/`Int`/`Rat`.  Every numeric value the
  proved statements depend on (the score arithmetic: multiples of 0.5 in
  [-oo, 10], and cost comparisons far away from equality) is exact in IEEE
  doubles, so the rational model is faithful for those statements.
* Effects (browser, vision, LLM, logger, clock, file writes) are modelled by
  an environment of oracle responses (`Except String _` per call site), and
  the functions additionally return the list of observable events (resource
  acquisition/release, log lines, sub-calls) in the order they occur.
-/

set_option autoImplicit false

namespace UserAgent

/-! ### JS string primitives -/

/-- JS `String.prototype.toLowerCase` restricted to the character repertoire
this code base uses: ASCII letters and the uppercase Czech letters that occur
in the keyword lists and fixtures.  Other characters are left unchanged. -/
def jsCharToLower (c : Char) : Char :=
  if 'A' ≤ c ∧ c ≤ 'Z' then Char.ofNat (c.toNat + 32)
  else match c with
    | 'Á' => 'á' | 'Č' => 'č' | 'Ď' => 'ď' | 'É' => 'é' | 'Ě' => 'ě'
    | 'Í' => 'í' | 'Ň' => 'ň' | 'Ó' => 'ó' | 'Ř' => 'ř' | 'Š' => 'š'
    | 'Ť' => 'ť' | 'Ú' => 'ú' | 'Ů' => 'ů' | 'Ý' => 'ý' | 'Ž' => 'ž'
    | c => c

/-- JS `String.prototype.toUpperCase` on the same repertoire. -/
def jsCharToUpper (c : Char) : Char :=
  if 'a' ≤ c ∧ c ≤ 'z' then Char.ofNat (c.toNat - 32)
  else match c with
    | 'á' => 'Á' | 'č' => 'Č' | 'ď' => 'Ď' | 'é' => 'É' | 'ě' => 'Ě'
    | 'í' => 'Í' | 'ň' => 'Ň' | 'ó' => 'Ó' | 'ř' => 'Ř' | 'š' => 'Š'
    | 'ť' => 'Ť' | 'ú' => 'Ú' | 'ů' => 'Ů' | 'ý' => 'Ý' | 'ž' => 'Ž'
    | c => c

def jsToLowerCase (s : String) : String := ⟨s.data.map jsCharToLower⟩

def jsToUpperCase (s : String) : String := ⟨s.data.map jsCharToUpper⟩

/-- Whether `needle` occurs as a contiguous sublist of `hay`. -/
def hasSubList (needle : List Char) : List Char → Bool
  | [] => needle.isEmpty
  | c :: t => needle.isPrefixOf (c :: t) || hasSubList needle t

/-- JS `s.includes(sub)`. -/
def jsIncludes (s sub : String) : Bool := hasSubList sub.data s.data

/-- JS `s.slice(0, n)` (for n ≥ 0). -/
def jsSlice0 (n : ℕ) (s : String) : String := ⟨s.data.take n⟩

/-- JS `s.split('.')[0]`: the text before the first `'.'`. -/
def takeBeforeDot (s : String) : String := ⟨s.data.takeWhile (· ≠ '.')⟩

/-- The approximation of JS `\s` used by this model: the whitespace characters
that can occur in this code base's strings. -/
def isJsWhitespace (c : Char) : Bool := c = ' ' ∨ c = '\t' ∨ c = '\n' ∨ c = '\r'

/-- JS `String.prototype.trim` on the modelled whitespace set. -/
def jsTrim (s : String) : String :=
  ⟨((s.data.dropWhile isJsWhitespace).reverse.dropWhile isJsWhitespace).reverse⟩

/-- The decimal digit character for `k` (`k < 10`; other inputs unused). -/
def decDigitChar (k : ℕ) : Char :=
  match k with
  | 0 => '0' | 1 => '1' | 2 => '2' | 3 => '3' | 4 => '4'
  | 5 => '5' | 6 => '6' | 7 => '7' | 8 => '8' | _ => '9'

/-- The decimal digits of `n`, least significant first (empty for 0). -/
def decDigitsAux (n : ℕ) : List Char :=
  if h : n = 0 then []
  else decDigitChar (n % 10) :: decDigitsAux (n / 10)
  decreasing_by exact Nat.div_lt_self (Nat.pos_of_ne_zero h) (by norm_num)

/-- JS `String(n)` for a nonnegative integer `n`. -/
def jsNatToString (n : ℕ) : String :=
  if n = 0 then "0" else ⟨(decDigitsAux n).reverse⟩

/-- JS `s.padStart(3, '0')`. -/
def padStart3 (s : String) : String :=
  ⟨List.replicate (3 - s.data.length) '0' ++ s.data⟩

/-- The numeric value of a list of decimal digit characters (big-endian). -/
def decValueList (l : List Char) : ℕ :=
  l.foldl (fun acc c => acc * 10 + (c.toNat - 48)) 0

/-- JS `new Set(...)` spread back into an array: deduplication keeping the
first occurrence of each element, in encounter order. -/
def jsSetDedup (l : List String) : List String :=
  l.foldl (fun acc a => if a ∈ acc then acc else acc ++ [a]) []

/-! ### Core data model (`src/core/types.ts`) -/

/-- `EvaluationResult` (`'met' | 'unmet' | 'partial' | 'surprised'`).
The source's `'partial'` is rendered `partialRes` (reserved word). -/
inductive EvaluationResult
  | met | unmet | partialRes | surprised
deriving DecidableEq

structure Evaluation where
  result : EvaluationResult
  reality : String
  notes : List String
  suggestions : List String
  userQuote : Option String
deriving DecidableEq

structure ScreenAnalysis where
  description : String
  mainElements : List String
  observations : List String
deriving DecidableEq

structure Expectation where
  what : String
  expectedTime : Option String
  confidence : Option String
deriving DecidableEq

/-- `ActionType`, with the `'fill'` variant used by `src/core/step.ts`.
The source's `'type'` is rendered `typeText`. -/
inductive ActionType
  | click | typeText | fill | scroll | wait | navigate | read
deriving DecidableEq

/-- One `(elementId, value)` pair of a `fill` action. -/
structure ActionInput where
  elementId : String
  value : String
deriving DecidableEq

structure ActionDecision where
  action : ActionType
  elementId : Option String
  value : Option String
  inputs : Option (List ActionInput)
  reasoning : String
deriving DecidableEq

/-- `StepResult`.  The opaque screenshot `Buffer` is modelled by a number. -/
structure StepResult where
  stepNumber : ℕ
  timestamp : ℕ
  screenshot : ℕ
  analysis : ScreenAnalysis
  expectation : Expectation
  action : ActionDecision
  evaluation : Evaluation
deriving DecidableEq

inductive DebugMode
  | off | debug | ultra
deriving DecidableEq

structure SessionConfig where
  url : String
  persona : String
  intent : Option String
  explore : Bool
  maxSteps : ℕ
  /-- seconds -/
  timeout : ℕ
  /-- seconds -/
  waitBetweenActions : ℕ
  credentials : Option (List (String × String))
  outputPath : String
  debug : DebugMode
  budgetCZK : ℚ
  jsonOutputPath : Option String
deriving DecidableEq

structure SessionContext where
  intent : Option String
  pageContext : Option String
  currentSummary : String
  lastStepResult : Option StepResult
  stepCount : ℕ
  issuesFound : List String
deriving DecidableEq

structure SessionSummary where
  totalSteps : ℕ
  intuitivenessScore : ℚ
  issuesFound : List String
  improvements : List String
  userQuotes : List String
deriving DecidableEq

structure CostSummary where
  inputTokens : ℕ
  outputTokens : ℕ
  totalCostUSD : ℚ
  totalCostCZK : ℚ
deriving DecidableEq

structure SessionReport where
  config : SessionConfig
  startTime : ℕ
  endTime : ℕ
  steps : List StepResult
  summary : SessionSummary
  cost : CostSummary
deriving DecidableEq

/-! ### ContextManager (`src/core/context.ts`) -/

def createInitialContext (intent : Option String) (pageContext : Option String) :
    SessionContext :=
  { intent := intent
    pageContext := pageContext
    currentSummary := ""
    lastStepResult := none
    stepCount := 0
    issuesFound := [] }

/-- Keywords that indicate UX issues (English and Czech). -/
def issueKeywords : List String :=
  [ -- English
    "confus", "unclear", "difficult", "hidden", "missing", "frustrat",
    "broken", "inconsistent", "unusable", "poor", "bad", "problem",
    "error", "fail", "wrong", "bug", "issue", "doesn't work", "not work",
    "hard to", "cannot", "can't", "impossible", "unintuitive",
    -- Czech
    "nekonzistent", "chybí", "problém", "špatně", "špatná", "špatný",
    "nefunguje", "nereaguje", "matoucí", "nejasn", "nelogick", "obtížn",
    "komplikovan", "zmatek", "nepoužiteln", "nepřehled"]

/-- The note filter of `updateContext`: some issue keyword occurs in the
lowercased note. -/
def noteHasIssueKeyword (note : String) : Bool :=
  issueKeywords.any fun keyword => jsIncludes (jsToLowerCase note) keyword

def updateContext (context : SessionContext) (stepResult : StepResult)
    (newSummary : String) : SessionContext :=
  let newIssues := stepResult.evaluation.notes.filter noteHasIssueKeyword
  { context with
    currentSummary := newSummary
    lastStepResult := some stepResult
    stepCount := context.stepCount + 1
    issuesFound := context.issuesFound ++ newIssues }

/-! ### ScoreCalculator (`calculateIntuitivenessScore`, `src/core/context.ts`) -/

/-- The per-outcome penalty of the `switch` in `calculateIntuitivenessScore`. -/
def stepPenalty : EvaluationResult → ℚ
  | .met => 0
  | .partialRes => 1
  | .unmet => 2
  | .surprised => 3 / 2

/-- JS `Math.round` (half-up, toward `+∞`). -/
def jsMathRound (x : ℚ) : ℤ := ⌊x + 1 / 2⌋

/-- `calculateIntuitivenessScore`.  All the intermediate values are halves of
integers of small magnitude, hence exact in IEEE doubles; the rational model
computes the same value as the JS code. -/
def calculateIntuitivenessScore (steps : List StepResult) : ℚ :=
  if steps.length = 0 then 5
  else
    let score := steps.foldl (fun s step => s - stepPenalty step.evaluation.result) 10
    max 0 (min 10 ((jsMathRound (score * 10) : ℚ) / 10))

/-- The reference definition stated by the spec (§4.4): start at 10.0,
subtract the per-outcome penalty for each step, clamp the total to [0, 10],
round to one decimal place; an empty step list yields 5.0. -/
def specIntuitivenessScore (steps : List StepResult) : ℚ :=
  if steps = [] then 5
  else
    let total := 10 - (steps.map (fun step => stepPenalty step.evaluation.result)).sum
    (jsMathRound (max 0 (min 10 total) * 10) : ℚ) / 10

def generateSummary (steps : List StepResult) (issuesFound : List String) :
    SessionSummary :=
  let improvements := (steps.map (fun step => step.evaluation.suggestions)).flatten
  let userQuotes := steps.filterMap (fun step => step.evaluation.userQuote)
  { totalSteps := steps.length
    intuitivenessScore := calculateIntuitivenessScore steps
    issuesFound := jsSetDedup issuesFound
    improvements := jsSetDedup improvements
    userQuotes := jsSetDedup userQuotes }

/-! ### CostGuard (`src/utils/cost.ts`) -/

/-- Claude pricing: $3/1M input tokens, $15/1M output tokens. -/
def PRICE_PER_INPUT_TOKEN_USD : ℚ := 3 / 1000000

def PRICE_PER_OUTPUT_TOKEN_USD : ℚ := 15 / 1000000

/-- The mutable closure state of `createCostTracker`. -/
structure CostState where
  inputTokens : ℕ
  outputTokens : ℕ
deriving DecidableEq

structure Usage where
  inputTokens : ℕ
  outputTokens : ℕ
deriving DecidableEq

def addUsage (st : CostState) (u : Usage) : CostState :=
  { inputTokens := st.inputTokens + u.inputTokens
    outputTokens := st.outputTokens + u.outputTokens }

def getTotalCostUSD (st : CostState) : ℚ :=
  st.inputTokens * PRICE_PER_INPUT_TOKEN_USD +
    st.outputTokens * PRICE_PER_OUTPUT_TOKEN_USD

def getTotalCostCZK (czkPerUsd : ℚ) (st : CostState) : ℚ :=
  getTotalCostUSD st * czkPerUsd

def isOverBudget (budgetCZK czkPerUsd : ℚ) (st : CostState) : Bool :=
  getTotalCostCZK czkPerUsd st > budgetCZK

/-! ### Collaborator interfaces (`src/vision`, `src/browser`, `src/llm`)

The collaborators perform I/O; the model replaces each of them by an oracle
value: what that call would return (`Except.ok`) or throw (`Except.error`).
The orchestration logic under verification is exactly the TypeScript control
flow around these call sites. -/

structure SnapshotElement where
  id : String
  role : String
  name : String
  description : Option String
  value : Option String
  disabled : Option Bool
  focused : Option Bool
deriving DecidableEq

/-- `vision.capture()` result. -/
structure Capture where
  screenshot : ℕ
  snapshot : List SnapshotElement
  timestamp : ℕ
deriving DecidableEq

/-- `browser.executeAction` result (`{success, error?, durationMs}`). -/
structure ActionResult where
  success : Bool
  error : Option String
  durationMs : ℕ
deriving DecidableEq

/-- The observable events of one session run, in order of occurrence.
`launched`/`closeInvoked` mark the browser resource acquisition and the
invocation of `browser.close()`; the `log...` events stand for the
corresponding `logger` lines of `runSession`; the per-step events mark the
sub-calls of `executeStep`. -/
inductive Event
  | launched
  | navigated
  | initialCaptured
  | pageContextQueried
  | stepStarted (n : ℕ)
  | beforeCaptured (n : ℕ)
  | analyzed (n : ℕ)
  | expectationFormulated (n : ℕ)
  | actionDecided (n : ℕ)
  | actionExecuted (n : ℕ)
  | logActionFailed (n : ℕ)
  | settleWaited (n : ℕ)
  | afterCaptured (n : ℕ)
  | evaluated (n : ℕ)
  | summarized (n : ℕ)
  | logTimeout
  | logBudget
  | logStepFailed (n : ℕ)
  | closeInvoked
  | reportSaved
  | jsonReportSaved
deriving DecidableEq

/-- The oracle responses consumed by one `executeStep` invocation, in the
order of its call sites (`src/core/step.ts`). -/
structure StepEnv where
  beforeCapture : Except String Capture
  analyze : Except String (ScreenAnalysis × Usage)
  expectation : Except String (Expectation × Usage)
  decide : Except String (ActionDecision × Usage)
  executeAction : Except String ActionResult
  afterCapture : Except String Capture
  evaluate : Except String (Evaluation × Usage)

/-- `executeStep` (`src/core/step.ts`): capture → analyze → formulate
expectation → decide action → execute action (a `success:false` result is
only logged) → settle wait → capture again → evaluate.  Token usage of each
LLM response is added to the cost state as the call returns.  Returns the
step outcome, the final cost state and the events that occurred. -/
def executeStep (stepNumber : ℕ) (env : StepEnv) (cost : CostState) :
    Except String StepResult × CostState × List Event :=
  match env.beforeCapture with
  | .error e => (.error e, cost, [])
  | .ok beforeCapture =>
    match env.analyze with
    | .error e => (.error e, cost, [.beforeCaptured stepNumber])
    | .ok (analysis, u1) =>
      let cost := addUsage cost u1
      match env.expectation with
      | .error e => (.error e, cost, [.beforeCaptured stepNumber, .analyzed stepNumber])
      | .ok (expectation, u2) =>
        let cost := addUsage cost u2
        match env.decide with
        | .error e =>
            (.error e, cost,
              [.beforeCaptured stepNumber, .analyzed stepNumber,
                .expectationFormulated stepNumber])
        | .ok (decision, u3) =>
          let cost := addUsage cost u3
          let evs :=
            [Event.beforeCaptured stepNumber, Event.analyzed stepNumber,
              Event.expectationFormulated stepNumber, Event.actionDecided stepNumber]
          match env.executeAction with
          | .error e => (.error e, cost, evs)
          | .ok actionResult =>
            let evs := evs ++ [Event.actionExecuted stepNumber] ++
              (if actionResult.success then [] else [Event.logActionFailed stepNumber])
            let evs := evs ++ [Event.settleWaited stepNumber]
            match env.afterCapture with
            | .error e => (.error e, cost, evs)
            | .ok _afterCapture =>
              let evs := evs ++ [Event.afterCaptured stepNumber]
              match env.evaluate with
              | .error e => (.error e, cost, evs)
              | .ok (evaluation, u4) =>
                let cost := addUsage cost u4
                let evs := evs ++ [Event.evaluated stepNumber]
                (.ok
                  { stepNumber := stepNumber
                    timestamp := beforeCapture.timestamp
                    screenshot := beforeCapture.screenshot
                    analysis := analysis
                    expectation := expectation
                    action := decision
                    evaluation := evaluation },
                  cost, evs)

/-- The oracle responses and ambient data of one `runSession` invocation. -/
structure SessionEnv where
  /-- `browser.launch` -/
  launch : Except String Unit
  /-- `browser.navigate(config.url)` -/
  navigate : Except String Unit
  /-- whether `browser.getPage()` returns a page (non-null) -/
  getPage : Bool
  /-- the initial `vision.capture()` -/
  initialCapture : Except String Capture
  /-- `llm.getPageContext` -/
  pageContext : Except String (String × Usage)
  /-- the collaborator responses of the step numbered `n` -/
  stepEnv : ℕ → StepEnv
  /-- `llm.summarizeContext` after the step numbered `n` -/
  summarize : ℕ → Except String (String × Usage)
  /-- `browser.close` -/
  close : Except String Unit
  /-- `browser.getVideoPath()` after close -/
  videoPath : Option String
  /-- `reportGenerator.save` -/
  saveReport : Except String Unit
  /-- `saveJsonReport` -/
  saveJson : Except String Unit
  /-- the value of the k-th `Date.now()` call of this run -/
  clock : ℕ → ℕ
  /-- the exchange rate the caller's `createCostTracker` closed over -/
  czkPerUsd : ℚ
  /-- the tracker's token counters when `runSession` is entered (a fresh
  tracker has both 0) -/
  initialCost : CostState

/-- The result of the `for` loop of `runSession`. -/
structure LoopResult where
  context : SessionContext
  cost : CostState
  clockIdx : ℕ
  steps : List StepResult
  events : List Event

/-- The step loop of `runSession` (`src/core/context.ts`, the
`for (let stepNumber = 1; ...)` loop), over the list of remaining step
numbers.  Each iteration reads the clock once for the timeout check; a
timeout or budget hit breaks before the step; a step (or summary) exception
is caught, logged and breaks; after a successful step the context is updated
— except after the final permitted step (`stepNumber < config.maxSteps`). -/
def runLoop (config : SessionConfig) (env : SessionEnv) (sessionStart : ℕ) :
    List ℕ → SessionContext → CostState → ℕ → LoopResult
  | [], ctx, cost, ci => ⟨ctx, cost, ci, [], []⟩
  | n :: rest, ctx, cost, ci =>
    let now := env.clock ci
    if now - sessionStart > config.timeout * 1000 then
      ⟨ctx, cost, ci + 1, [], [.logTimeout]⟩
    else if isOverBudget config.budgetCZK env.czkPerUsd cost then
      ⟨ctx, cost, ci + 1, [], [.logBudget]⟩
    else
      match executeStep n (env.stepEnv n) cost with
      | (.error _, cost1, sevs) =>
        ⟨ctx, cost1, ci + 1, [], .stepStarted n :: sevs ++ [.logStepFailed n]⟩
      | (.ok stepResult, cost1, sevs) =>
        if n < config.maxSteps then
          match env.summarize n with
          | .error _ =>
            ⟨ctx, cost1, ci + 1, [stepResult],
              .stepStarted n :: sevs ++ [.logStepFailed n]⟩
          | .ok (newSummary, u) =>
            let cost2 := addUsage cost1 u
            let ctx2 := updateContext ctx stepResult newSummary
            let r := runLoop config env sessionStart rest ctx2 cost2 (ci + 1)
            ⟨r.context, r.cost, r.clockIdx, stepResult :: r.steps,
              .stepStarted n :: sevs ++ .summarized n :: r.events⟩
        else
          let r := runLoop config env sessionStart rest ctx cost1 (ci + 1)
          ⟨r.context, r.cost, r.clockIdx, stepResult :: r.steps,
            .stepStarted n :: sevs ++ r.events⟩

/-- The outcome of a `runSession` call: its events and its returned report
(or the exception it propagates). -/
structure RunOutcome where
  events : List Event
  result : Except String SessionReport

/-- `runSession` (`src/core/context.ts`): launch browser, navigate, get the
page, initial capture, page-context LLM call, then the step loop, then —
with no surrounding `try`/`finally` — `browser.close()`, report assembly and
the report writers.  `Date.now()` readings are consumed from `env.clock` in
call order: 0 = `startTime`, 1 = `sessionStartTime`, one per loop iteration,
then `endTime`. -/
def runSession (config : SessionConfig) (env : SessionEnv) : RunOutcome :=
  let startTime := env.clock 0
  match env.launch with
  | .error e => ⟨[], .error e⟩
  | .ok _ =>
    match env.navigate with
    | .error e => ⟨[.launched], .error e⟩
    | .ok _ =>
      match env.getPage with
      | false => ⟨[.launched, .navigated], .error "Failed to get browser page"⟩
      | true =>
        match env.initialCapture with
        | .error e => ⟨[.launched, .navigated], .error e⟩
        | .ok _initialCapture =>
          match env.pageContext with
          | .error e => ⟨[.launched, .navigated, .initialCaptured], .error e⟩
          | .ok (pageContextData, u0) =>
            let cost := addUsage env.initialCost u0
            let context := createInitialContext config.intent (some pageContextData)
            let sessionStart := env.clock 1
            let r := runLoop config env sessionStart
              (List.range' 1 config.maxSteps) context cost 2
            let evs := [Event.launched, Event.navigated, Event.initialCaptured,
              Event.pageContextQueried] ++ r.events ++ [Event.closeInvoked]
            match env.close with
            | .error e => ⟨evs, .error e⟩
            | .ok _ =>
              let endTime := env.clock r.clockIdx
              let report : SessionReport :=
                { config := config
                  startTime := startTime
                  endTime := endTime
                  steps := r.steps
                  summary := generateSummary r.steps r.context.issuesFound
                  cost :=
                    { inputTokens := r.cost.inputTokens
                      outputTokens := r.cost.outputTokens
                      totalCostUSD := getTotalCostUSD r.cost
                      totalCostCZK := getTotalCostCZK env.czkPerUsd r.cost } }
              match env.saveReport with
              | .error e => ⟨evs, .error e⟩
              | .ok _ =>
                let evs := evs ++ [Event.reportSaved]
                match config.jsonOutputPath with
                | none => ⟨evs, .ok report⟩
                | some _ =>
                  match env.saveJson with
                  | .error e => ⟨evs, .error e⟩
                  | .ok _ => ⟨evs ++ [Event.jsonReportSaved], .ok report⟩

/-! ### ReportClassifier (`src/llm/claude-cli.ts`, JSON report section) -/

inductive NoteSentiment
  | negative | positive | neutral
deriving DecidableEq

/-- Keywords indicating negative sentiment (problems, issues, risks). -/
def NEGATIVE_KEYWORDS : List String :=
  ["chybí", "není", "nejasn", "matoucí", "zmaten", "problém", "špatně", "špatný",
   "nefunguje", "broken", "fail", "error", "nelze", "nemůže", "nevidí", "schází",
   "missing", "unclear", "confus", "difficult", "hard to", "cannot", "doesn't",
   "won't", "couldn't", "shouldn't", "risk", "danger", "warning", "issue",
   "bug", "nevím", "don't know", "unsure", "uncertain", "překáž", "blokuje",
   "brání", "komplik", "složit", "těžk", "nepohodl", "frustr", "irituj",
   "otravuj", "zdržuje", "pomalý", "slow", "lag", "neočekáv", "unexpect",
   "ale ", "však", "jenže", "bohužel", "unfortunately", "could be better",
   "mohl by být", "mohlo by", "would be nice", "by se hodilo", "není vidět",
   "skryt", "malý", "small", "tiny", "hard to see", "těžko vidět", "nevýrazn"]

/-- Keywords indicating positive sentiment. -/
def POSITIVE_KEYWORDS : List String :=
  ["přehledn", "jednoduch", "snadný", "srozumiteln", "jasný", "clear", "easy",
   "simple", "intuitive", "intuitivn", "dobrý", "dobře", "good", "great",
   "excellent", "perfect", "výborn", "skvěl", "pěkn", "nice", "helpful",
   "užitečn", "praktick", "čiteln", "readable", "velký", "large", "visible",
   "viditeln", "funguje", "works", "working", "správně", "correctly", "properly",
   "rychl", "fast", "quick", "responzivn", "responsive", "bezpečn", "secure",
   "díky", "thanks", "rád", "glad", "happy", "pleased", "satisfied", "spokoje"]

/-- The negative-keyword score of a note (number of matching keywords). -/
def noteNegativeScore (note : String) : ℕ :=
  NEGATIVE_KEYWORDS.countP fun keyword => jsIncludes (jsToLowerCase note) keyword

/-- The positive-keyword score of a note. -/
def notePositiveScore (note : String) : ℕ :=
  POSITIVE_KEYWORDS.countP fun keyword => jsIncludes (jsToLowerCase note) keyword

/-- The check for "but" constructions that negate positives
(`' ale '`, `' však '`, `', but '`). -/
def noteHasButMarker (note : String) : Bool :=
  jsIncludes (jsToLowerCase note) " ale " ||
  jsIncludes (jsToLowerCase note) " však " ||
  jsIncludes (jsToLowerCase note) ", but "

/-- `classifyNoteSentiment`. -/
def classifyNoteSentiment (note : String) : NoteSentiment :=
  let negativeScore := noteNegativeScore note
  let positiveScore := notePositiveScore note
  if noteHasButMarker note ∧ negativeScore > 0 then .negative
  else if negativeScore > positiveScore then .negative
  else if positiveScore > negativeScore then .positive
  else if negativeScore = 0 ∧ positiveScore = 0 then .neutral
  else if negativeScore > 0 then .negative
  else .neutral

/-- `detectCategory`: first matching category wins, in a fixed order. -/
def detectCategory (text : String) : String :=
  let lower := jsToLowerCase text
  if jsIncludes lower "form" || jsIncludes lower "input" || jsIncludes lower "field" ||
      jsIncludes lower "políčk" || jsIncludes lower "formulář" then "form"
  else if jsIncludes lower "navigation" || jsIncludes lower "menu" ||
      jsIncludes lower "link" || jsIncludes lower "navigac" then "navigation"
  else if jsIncludes lower "loading" || jsIncludes lower "slow" ||
      jsIncludes lower "performance" || jsIncludes lower "pomal" ||
      jsIncludes lower "načít" then "performance"
  else if jsIncludes lower "accessibility" || jsIncludes lower "a11y" ||
      jsIncludes lower "screen reader" || jsIncludes lower "přístupnost" then "a11y"
  else if jsIncludes lower "onboarding" || jsIncludes lower "registration" ||
      jsIncludes lower "sign up" || jsIncludes lower "registrac" ||
      (jsIncludes lower "vytvoř" && jsIncludes lower "účet") then "onboarding"
  else if jsIncludes lower "text" || jsIncludes lower "label" || jsIncludes lower "copy" ||
      jsIncludes lower "placeholder" || jsIncludes lower "popis" ||
      jsIncludes lower "nápis" then "copy"
  else if jsIncludes lower "error" || jsIncludes lower "validation" ||
      jsIncludes lower "chyb" || jsIncludes lower "validac" then "validation"
  else if jsIncludes lower "feedback" || jsIncludes lower "confirm" ||
      jsIncludes lower "potvr" || jsIncludes lower "zpětná vazba" then "feedback"
  else if jsIncludes lower "heslo" || jsIncludes lower "password" then "security"
  else if jsIncludes lower "button" || jsIncludes lower "tlačítko" ||
      jsIncludes lower "klik" then "interaction"
  else "ux"

/-- The categories `detectCategory` can return. -/
def categoryList : List String :=
  ["form", "navigation", "performance", "a11y", "onboarding", "copy",
   "validation", "feedback", "security", "interaction", "ux"]

inductive Severity
  | low | medium | high
deriving DecidableEq

/-- `detectSeverity`. -/
def detectSeverity (text : String) (category : String) : Severity :=
  let lower := jsToLowerCase text
  if jsIncludes lower "critical" || jsIncludes lower "broken" ||
      jsIncludes lower "crash" || jsIncludes lower "nefunguje" ||
      jsIncludes lower "nelze" || jsIncludes lower "blokuje" ||
      jsIncludes lower "cannot" || jsIncludes lower "impossible" then .high
  else if category = "onboarding" &&
      (jsIncludes lower "zmaten" || jsIncludes lower "confus" ||
        jsIncludes lower "nevím" || jsIncludes lower "nejasn" ||
        jsIncludes lower "neočekáv") then .medium
  else if (jsIncludes lower "heslo" || jsIncludes lower "password") &&
      (jsIncludes lower "chybí" || jsIncludes lower "missing" ||
        jsIncludes lower "není" || jsIncludes lower "nevím" ||
        jsIncludes lower "požadav" || jsIncludes lower "pravidl") then
    -- both arms of the source's inner rejection check yield medium
    if jsIncludes lower "odmít" || jsIncludes lower "reject" ||
        jsIncludes lower "chyb" || jsIncludes lower "error" ||
        jsIncludes lower "fail" then .medium
    else .medium
  else if jsIncludes lower "confus" || jsIncludes lower "unclear" ||
      jsIncludes lower "missing" || jsIncludes lower "zmaten" ||
      jsIncludes lower "nejasn" || jsIncludes lower "chybí" ||
      jsIncludes lower "matoucí" || jsIncludes lower "těžk" ||
      jsIncludes lower "komplik" then .medium
  else .low

/-- `generateIssueId`: `` `UX-${prefix}-${String(index + 1).padStart(3, '0')}` ``
with `prefix = category.toUpperCase().slice(0, 3)` (renamed `pre`:
reserved word). -/
def generateIssueId (category : String) (index : ℕ) : String :=
  let pre := jsSlice0 3 (jsToUpperCase category)
  "UX-" ++ pre ++ "-" ++ padStart3 (jsNatToString (index + 1))

/-- `generatePositiveId`. -/
def generatePositiveId (category : String) (index : ℕ) : String :=
  let pre := jsSlice0 3 (jsToUpperCase category)
  "OK-" ++ pre ++ "-" ++ padStart3 (jsNatToString (index + 1))

/-! #### `extractPersonaName`

The source uses two regexes; they are modelled by direct scanners.
`[A-ZÁ-Ž]` and `[a-zá-ž]` are the JS code-point ranges U+0041–U+005A,
U+00C1–U+017D and U+0061–U+007A, U+00E1–U+017E.  The `/i` flag of the second
regex is modelled by accepting both classes (exact Unicode simple case
folding differs only on characters that cannot arise here). -/

def isUpperNameChar (c : Char) : Bool :=
  ('A' ≤ c ∧ c ≤ 'Z') ∨ (0xC1 ≤ c.toNat ∧ c.toNat ≤ 0x17D)

def isLowerNameChar (c : Char) : Bool :=
  ('a' ≤ c ∧ c ≤ 'z') ∨ (0xE1 ≤ c.toNat ∧ c.toNat ≤ 0x17E)

/-- The regex `/^([A-ZÁ-Ž][a-zá-ž]+)/` applied to `persona`. -/
def matchLeadingName (persona : String) : Option String :=
  match persona.data with
  | [] => none
  | c :: rest =>
    if isUpperNameChar c then
      let tail := rest.takeWhile isLowerNameChar
      if tail.isEmpty then none else some ⟨c :: tail⟩
    else none

/-- Case-insensitive match of a literal (given in lowercase); returns the
remaining input. -/
def matchLitCI : List Char → List Char → Option (List Char)
  | [], rest => some rest
  | _ :: _, [] => none
  | l :: ls, c :: cs => if jsCharToLower c = l then matchLitCI ls cs else none

/-- One attempt of `/jm[eé]no\s+je\s+([A-ZÁ-Ž][a-zá-ž]+)/i` at the head of
the input. -/
def matchJmenoJeAt (cs : List Char) : Option String :=
  match matchLitCI ['j', 'm'] cs with
  | none => none
  | some rest0 =>
    match rest0 with
    | [] => none
    | e :: rest1 =>
      if jsCharToLower e = 'e' ∨ jsCharToLower e = 'é' then
        match matchLitCI ['n', 'o'] rest1 with
        | none => none
        | some rest2 =>
          match rest2 with
          | [] => none
          | w1 :: _ =>
            if isJsWhitespace w1 then
              match matchLitCI ['j', 'e'] (rest2.dropWhile isJsWhitespace) with
              | none => none
              | some rest3 =>
                match rest3 with
                | [] => none
                | w2 :: _ =>
                  if isJsWhitespace w2 then
                    match rest3.dropWhile isJsWhitespace with
                    | [] => none
                    | h :: t =>
                      if isUpperNameChar h || isLowerNameChar h then
                        let tail := t.takeWhile
                          (fun ch => isLowerNameChar ch || isUpperNameChar ch)
                        if tail.isEmpty then none else some ⟨h :: tail⟩
                      else none
                  else none
            else none
      else none

/-- Leftmost match of the `jmeno je` regex. -/
def searchJmenoJe : List Char → Option String
  | [] => none
  | c :: t =>
    match matchJmenoJeAt (c :: t) with
    | some name => some name
    | none => searchJmenoJe t

/-- A separator of the fallback split regex `/[,.\s]+/`. -/
def isSepChar (c : Char) : Bool := c = ',' ∨ c = '.' ∨ isJsWhitespace c

/-- Helper of `splitOnSeps`: `acc` holds the current segment reversed. -/
def splitOnSepsAux (acc : List Char) : List Char → List (List Char)
  | [] => [acc.reverse]
  | c :: t =>
    if isSepChar c then
      acc.reverse :: splitOnSepsAux [] (t.dropWhile isSepChar)
    else
      splitOnSepsAux (c :: acc) t
  termination_by l => l.length
  decreasing_by
    · have key : ∀ (q : Char → Bool) (xs : List Char),
          (xs.dropWhile q).length ≤ xs.length := by
        intro q xs
        induction xs with
        | nil => simp
        | cons a s ih =>
          cases hq : q a
          · simp [List.dropWhile, hq]
          · simp only [List.dropWhile, hq]
            exact le_trans ih (Nat.le_succ _)
      have := key isSepChar t
      simp
      omega
    · simp

/-- JS `persona.split(/[,.\s]+/)`: the segments between maximal separator
runs (with empty boundary segments, as in JS). -/
def splitOnSeps (l : List Char) : List (List Char) := splitOnSepsAux [] l

structure PersonaInfo where
  name : String
  description : String
deriving DecidableEq

/-- `extractPersonaName`. -/
def extractPersonaName (persona : String) : PersonaInfo :=
  match matchLeadingName persona with
  | some name => ⟨name, persona⟩
  | none =>
    match searchJmenoJe persona.data with
    | some name => ⟨name, persona⟩
    | none =>
      let words := String.intercalate " "
        (((splitOnSeps persona.data).take 2).map fun l => (⟨l⟩ : String))
      ⟨if words = "" then "User" else words, persona⟩

/-! #### `generateAcceptanceCriteria` -/

/-- One attempt of ``/word\s+([^,\.]+)/i`` at the head of the input (`word`
given in lowercase).  The greedy no-backtracking reading is modelled; the
regex engine would additionally backtrack into `\s+` when the capture would
otherwise start at `,` or `.`, which cannot change any statement proved
below. -/
def captureAfterWordAt (word : List Char) (cs : List Char) : Option (List Char) :=
  match matchLitCI word cs with
  | none => none
  | some rest =>
    match rest with
    | [] => none
    | r :: _ =>
      if isJsWhitespace r then
        let cap := (rest.dropWhile isJsWhitespace).takeWhile
          (fun ch => ch ≠ ',' ∧ ch ≠ '.')
        if cap.isEmpty then none else some cap
      else none

/-- Leftmost match of ``/word\s+([^,\.]+)/i``; the capture group. -/
def captureAfterWord (word : List Char) : List Char → Option (List Char)
  | [] => none
  | c :: t =>
    match captureAfterWordAt word (c :: t) with
    | some cap => some cap
    | none => captureAfterWord word t

/-- `generateAcceptanceCriteria`: keyword-triggered templates, generic
fallbacks, at least 2 and at most 5 criteria. -/
def generateAcceptanceCriteria (issue : String) (category : String) : List String :=
  let lower := jsToLowerCase issue
  let criteria : List String := []
  -- Password-related issues
  let criteria := criteria ++
    (if jsIncludes lower "heslo" || jsIncludes lower "password" then
      (if jsIncludes lower "chybí" || jsIncludes lower "požadav" ||
          jsIncludes lower "pravidl" || jsIncludes lower "nevím" then
        ["Pod polem hesla je zobrazen text s požadavky (např. \"min. 8 znaků, 1 číslo\")",
         "Při psaní hesla se dynamicky zobrazuje indikátor síly (slabé/střední/silné)",
         "Nesplněné požadavky jsou zvýrazněny červeně před odesláním formuláře"]
      else []) ++
      (if jsIncludes lower "nevidím" || jsIncludes lower "tečk" ||
          jsIncludes lower "skryt" then
        ["U pole hesla je ikona oka pro přepnutí viditelnosti",
         "Po kliknutí na ikonu se heslo zobrazí jako čitelný text"]
      else [])
    else [])
  -- Form/input issues
  let criteria := criteria ++
    (if category = "form" || jsIncludes lower "formulář" ||
        jsIncludes lower "políčk" || jsIncludes lower "input" then
      (if jsIncludes lower "povinн" || jsIncludes lower "required" ||
          jsIncludes lower "hvězdičk" then
        ["Povinná pole jsou označena hvězdičkou (*) nebo textem \"povinné\"",
         "Při pokusu o odeslání prázdného povinného pole se zobrazí chybová hláška"]
      else []) ++
      (if jsIncludes lower "validac" || jsIncludes lower "chyb" then
        ["Chybové hlášky se zobrazují přímo u příslušného pole",
         "Text chyby jasně říká, co je špatně a jak to opravit"]
      else [])
    else [])
  -- Onboarding/registration issues
  let criteria := criteria ++
    (if category = "onboarding" || jsIncludes lower "registrac" then
      (if jsIncludes lower "uvítací" || jsIncludes lower "potvr" ||
          jsIncludes lower "welcome" || jsIncludes lower "neočekáv" then
        ["Po úspěšné registraci se zobrazí uvítací zpráva s textem \"Účet byl vytvořen\"",
         "Uvítací zpráva obsahuje jméno uživatele",
         "Novinka/promo okno se nezobrazuje ihned po registraci, ale až po zavření uvítání"]
      else []) ++
      (if jsIncludes lower "slang" || jsIncludes lower "hantýrk" ||
          jsIncludes lower "jazyk" || jsIncludes lower "text" then
        ["Všechny texty v UI jsou srozumitelné pro uživatele 60+",
         "Neformální výrazy jsou nahrazeny standardním jazykem"]
      else [])
    else [])
  -- Visibility/size issues
  let criteria := criteria ++
    (if jsIncludes lower "malý" || jsIncludes lower "small" ||
        jsIncludes lower "vidět" || jsIncludes lower "nevýrazn" then
      ["Element má minimální velikost 44x44px (dotyková oblast)",
       "Text má minimální velikost 16px",
       "Kontrastní poměr textu vůči pozadí je min. 4.5:1"]
    else [])
  -- Feedback issues
  let criteria := criteria ++
    (if category = "feedback" || jsIncludes lower "zpětná" ||
        jsIncludes lower "feedback" then
      ["Po každé uživatelské akci je viditelná odezva do 100ms",
       "Úspěšné akce jsou potvrzeny zelenou barvou nebo ikonou ✓"]
    else [])
  -- Navigation issues
  let criteria := criteria ++
    (if category = "navigation" then
      ["Odkaz je vizuálně odlišen od okolního textu (barva, podtržení)",
       "Po najetí myší se změní kurzor na pointer"]
    else [])
  -- Generic fallback criteria based on issue text
  let criteria :=
    if criteria.length = 0 then
      criteria ++
        (if jsIncludes lower "přidat" || jsIncludes lower "add" then
          match
            (match captureAfterWord "přidat".data issue.data with
              | some cap => some cap
              | none => captureAfterWord "add".data issue.data) with
          | some what =>
            let w := jsTrim ⟨what⟩
            ["Element \"" ++ w ++ "\" je přítomen na stránce",
             "Element \"" ++ w ++ "\" je viditelný bez scrollování"]
          | none => []
        else []) ++
        (if jsIncludes lower "zobrazit" || jsIncludes lower "show" ||
            jsIncludes lower "display" then
          ["Informace je viditelná ihned po načtení stránky",
           "Informace je umístěna v kontextu relevantního prvku"]
        else [])
    else criteria
  -- Ensure we have at least 2 criteria
  let criteria :=
    if criteria.length < 2 then
      criteria ++
        ["Změna je viditelná na stránce bez nutnosti refreshe",
         "Funkčnost je ověřena manuálním testem"]
    else criteria
  -- Limit to 5 criteria
  criteria.take 5

/-! #### JSON report assembly (`buildJsonReport`) -/

/-- A step result as rendered in the JSON report
(`'met' | 'partial' | 'surprised' | 'failed'`). -/
inductive JsonStepResult
  | met | partialRes | surprised | failed
deriving DecidableEq

structure JsonReportStep where
  step : ℕ
  action : String
  target : Option String
  value : Option String
  result : JsonStepResult
  notes : List String
deriving DecidableEq

structure JsonEvidence where
  step : ℕ
  description : String
deriving DecidableEq

structure JsonReportIssue where
  id : String
  severity : Severity
  category : String
  title : String
  evidence : JsonEvidence
  recommendation : String
  acceptance_criteria : List String
deriving DecidableEq

structure JsonReportPositive where
  id : String
  category : String
  title : String
  evidence : JsonEvidence
deriving DecidableEq

structure JsonReportObservation where
  step : ℕ
  text : String
deriving DecidableEq

structure JsonArtifacts where
  video : Option String
  screenshots : List String
deriving DecidableEq

/-- The `summary` object of the JSON report.  The source field `partial` is
rendered `partialSteps` (reserved word). -/
structure JsonSummary where
  total_steps : ℕ
  met : ℕ
  partialSteps : ℕ
  failed : ℕ
deriving DecidableEq

structure JsonReport where
  run_id : String
  url : String
  persona : PersonaInfo
  intent : Option String
  duration_ms : ℤ
  intuitiveness_score : ℚ
  artifacts : JsonArtifacts
  steps : List JsonReportStep
  issues : List JsonReportIssue
  positives : List JsonReportPositive
  observations : List JsonReportObservation
  summary : JsonSummary
deriving DecidableEq

/-- JS `x || null` for an optional string (the empty string is falsy). -/
def jsOrNull (x : Option String) : Option String :=
  match x with
  | some s => if s = "" then none else some s
  | none => none

def actionTypeName : ActionType → String
  | .click => "click"
  | .typeText => "type"
  | .fill => "fill"
  | .scroll => "scroll"
  | .wait => "wait"
  | .navigate => "navigate"
  | .read => "read"

/-- `getTarget`: the element id(s) the action addressed. -/
def getTarget (step : StepResult) : Option String :=
  match step.action.inputs with
  | some inputs =>
    if inputs.length > 0 then
      some (String.intercalate ", " (inputs.map (·.elementId)))
    else jsOrNull step.action.elementId
  | none => jsOrNull step.action.elementId

/-- `mapResult`: the orchestrator's `unmet` maps to `failed`. -/
def mapResult : EvaluationResult → JsonStepResult
  | .met => .met
  | .partialRes => .partialRes
  | .surprised => .surprised
  | .unmet => .failed

/-- `JSON.stringify` of an array of strings (quotes and backslashes escaped;
other escapes cannot arise in the modelled strings). -/
def jsonStringifyStringList (l : List String) : String :=
  "[" ++ String.intercalate ","
    (l.map fun s =>
      "\"" ++ (⟨s.data.flatMap fun c =>
        if c = '"' then ['\\', '"']
        else if c = '\\' then ['\\', '\\']
        else [c]⟩ : String) ++ "\"")
  ++ "]"

/-- The `value` field of a JSON report step:
`step.action.value || (step.action.inputs ? JSON.stringify(...) : undefined)`. -/
def jsStepValue (a : ActionDecision) : Option String :=
  let fallback :=
    match a.inputs with
    | some inputs => some (jsonStringifyStringList (inputs.map (·.value)))
    | none => none
  match a.value with
  | some v => if v ≠ "" then some v else fallback
  | none => fallback

def buildJsonSteps (steps : List StepResult) : List JsonReportStep :=
  steps.map fun step =>
    { step := step.stepNumber
      action := actionTypeName step.action.action
      target := getTarget step
      value := jsStepValue step.action
      result := mapResult step.evaluation.result
      notes := step.evaluation.notes.take 5 }

/-- The classifier loop state: the three output lists and the two id
counters (`issueIndex`, `positiveIndex`). -/
structure ClassifyState where
  issues : List JsonReportIssue
  positives : List JsonReportPositive
  observations : List JsonReportObservation
  issueIndex : ℕ
  positiveIndex : ℕ

def emptyClassifyState : ClassifyState := ⟨[], [], [], 0, 0⟩

/-- The recommendation of a note-derived issue:
`suggestions.find(s => detectCategory(s) === category) || suggestions[0] ||
'Investigate and address this issue'` (JS `||`: the empty string is falsy). -/
def issueRecommendation (suggestions : List String) (category : String) : String :=
  let fallback :=
    match suggestions.head? with
    | some s => if s ≠ "" then s else "Investigate and address this issue"
    | none => "Investigate and address this issue"
  match suggestions.find? (fun s => decide (detectCategory s = category)) with
  | some s => if s ≠ "" then s else fallback
  | none => fallback

/-- Processing of one evaluation note of a step. -/
def processNote (step : StepResult) (st : ClassifyState) (note : String) :
    ClassifyState :=
  if note.length < 15 then st -- Skip trivial notes
  else
    let sentiment := classifyNoteSentiment note
    let category := detectCategory note
    match sentiment with
    | .negative =>
      { st with
        issues := st.issues ++
          [{ id := generateIssueId category st.issueIndex
             severity := detectSeverity note category
             category := category
             title := jsSlice0 100 (takeBeforeDot note)
             evidence := ⟨step.stepNumber, note⟩
             recommendation := issueRecommendation step.evaluation.suggestions category
             acceptance_criteria := generateAcceptanceCriteria note category }]
        issueIndex := st.issueIndex + 1 }
    | .positive =>
      { st with
        positives := st.positives ++
          [{ id := generatePositiveId category st.positiveIndex
             category := category
             title := jsSlice0 100 (takeBeforeDot note)
             evidence := ⟨step.stepNumber, note⟩ }]
        positiveIndex := st.positiveIndex + 1 }
    | .neutral =>
      { st with observations := st.observations ++ [⟨step.stepNumber, note⟩] }

/-- The duplicate check of the suggestion/summary loops: 30-character title
prefix containment in either direction. -/
def suggestionAlreadyExists (issues : List JsonReportIssue) (text : String) : Bool :=
  issues.any fun i =>
    jsIncludes (jsToLowerCase i.title) (jsSlice0 30 (jsToLowerCase text)) ||
    jsIncludes (jsToLowerCase text) (jsSlice0 30 (jsToLowerCase i.title))

/-- Processing of one suggestion of a step (suggestions indicate something
to improve). -/
def processSuggestion (step : StepResult) (st : ClassifyState)
    (suggestion : String) : ClassifyState :=
  if suggestion.length < 20 then st
  else if suggestionAlreadyExists st.issues suggestion then st
  else
    let category := detectCategory suggestion
    { st with
      issues := st.issues ++
        [{ id := generateIssueId category st.issueIndex
           severity := detectSeverity suggestion category
           category := category
           title := jsSlice0 100 (takeBeforeDot suggestion)
           evidence := ⟨step.stepNumber, "Suggestion from evaluation: " ++ suggestion⟩
           recommendation := suggestion
           acceptance_criteria := generateAcceptanceCriteria suggestion category }]
      issueIndex := st.issueIndex + 1 }

/-- Processing of one session-summary issue string (evidence step 0). -/
def processSummaryIssue (improvements : List String) (st : ClassifyState)
    (issue : String) : ClassifyState :=
  if ¬ suggestionAlreadyExists st.issues issue ∧ issue.length > 20 then
    let category := detectCategory issue
    { st with
      issues := st.issues ++
        [{ id := generateIssueId category st.issueIndex
           severity := detectSeverity issue category
           category := category
           title := jsSlice0 100 issue
           evidence := ⟨0, issue⟩
           recommendation :=
             match improvements.find? (fun i => decide (detectCategory i = category)) with
             | some s => if s ≠ "" then s else "Address this UX issue"
             | none => "Address this UX issue"
           acceptance_criteria := generateAcceptanceCriteria issue category }]
      issueIndex := st.issueIndex + 1 }
  else st

def classifyStep (st : ClassifyState) (step : StepResult) : ClassifyState :=
  step.evaluation.suggestions.foldl (processSuggestion step)
    (step.evaluation.notes.foldl (processNote step) st)

/-- The full classification pass of `buildJsonReport`: the per-step notes and
suggestions, then the session-level summary issues. -/
def classifyReport (report : SessionReport) : ClassifyState :=
  report.summary.issuesFound.foldl (processSummaryIssue report.summary.improvements)
    (report.steps.foldl classifyStep emptyClassifyState)

/-- The final dedup reduce: 20-character title prefix containment in either
direction against the already-kept issues. -/
def issueIsDuplicate (acc : List JsonReportIssue) (issue : JsonReportIssue) : Bool :=
  acc.any fun existing =>
    jsIncludes (jsToLowerCase existing.title) (jsSlice0 20 (jsToLowerCase issue.title)) ||
    jsIncludes (jsToLowerCase issue.title) (jsSlice0 20 (jsToLowerCase existing.title))

def dedupIssues (issues : List JsonReportIssue) : List JsonReportIssue :=
  issues.foldl (fun acc issue => if issueIsDuplicate acc issue then acc else acc ++ [issue]) []

/-- `` new Date(report.startTime).toISOString().replace(/[:.]/g, '-') ``.
The `Date` library's ISO rendering is an external collaborator, passed in as
`toISO`. -/
def makeRunId (toISO : ℕ → String) (startTime : ℕ) : String :=
  ⟨(toISO startTime).data.map fun c => if c = ':' ∨ c = '.' then '-' else c⟩

/-- `buildJsonReport`.  `toISO` models the JS `Date` ISO-string rendering
(environment-supplied); `videoPath` is the optional video artifact path. -/
def buildJsonReport (toISO : ℕ → String) (report : SessionReport)
    (videoPath : Option String) : JsonReport :=
  let steps := buildJsonSteps report.steps
  let cls := classifyReport report
  let uniqueIssues := dedupIssues cls.issues
  let met := (steps.filter fun s => decide (s.result = JsonStepResult.met)).length
  let partialCount :=
    (steps.filter fun s => decide (s.result = JsonStepResult.partialRes)).length
  let failed := (steps.filter fun s =>
    decide (s.result = JsonStepResult.failed) ||
    decide (s.result = JsonStepResult.surprised)).length
  { run_id := makeRunId toISO report.startTime
    url := report.config.url
    persona := extractPersonaName report.config.persona
    intent := jsOrNull report.config.intent
    duration_ms := (report.endTime : ℤ) - (report.startTime : ℤ)
    intuitiveness_score := report.summary.intuitivenessScore
    artifacts := ⟨videoPath, []⟩
    steps := steps
    issues := uniqueIssues.take 20
    positives := cls.positives.take 10
    observations := cls.observations.take 10
    summary :=
      { total_steps := steps.length
        met := met
        partialSteps := partialCount
        failed := failed } }

deriving instance DecidableEq for Except

/-! ### Proof-support definitions -/

/-- Twice the score penalty, as a natural number (proof support: every
penalty is a multiple of 1/2). -/
def twicePenalty : EvaluationResult → ℕ
  | .met => 0
  | .partialRes => 2
  | .unmet => 4
  | .surprised => 3

/-- The little-endian value of a digit list (proof support for
`jsNatToString`). -/
def digitsValLE : List Char → ℕ
  | [] => 0
  | c :: t => (c.toNat - 48) + 10 * digitsValLE t

/-- The sequence number encoded in a generated issue/positive id: the decimal
value of the digits after the last `'-'`. -/
def idSeqVal (s : String) : ℕ :=
  decValueList (s.data.reverse.takeWhile fun c => decide (c ≠ '-')).reverse

/-- The shape of every generated issue id: `UX-<prefix>-<zero-padded k>`. -/
def IsIssueId (i : JsonReportIssue) (k : ℕ) : Prop :=
  i.id = "UX-" ++ jsSlice0 3 (jsToUpperCase i.category) ++ "-" ++
    padStart3 (jsNatToString k)

/-- The shape of every generated positive id: `OK-<prefix>-<zero-padded k>`. -/
def IsPositiveId (p : JsonReportPositive) (k : ℕ) : Prop :=
  p.id = "OK-" ++ jsSlice0 3 (jsToUpperCase p.category) ++ "-" ++
    padStart3 (jsNatToString k)

/-- The id-assignment invariant of the classifier loop: the sequence numbers
encoded in the issue ids are exactly `1, 2, ..., length` in order, and every
id has the generated shape. -/
def IssuesIdInv (issues : List JsonReportIssue) : Prop :=
  issues.map (fun i => idSeqVal i.id) = (List.range issues.length).map (· + 1) ∧
    ∀ i ∈ issues, ∃ k, 1 ≤ k ∧ IsIssueId i k

def PositivesIdInv (positives : List JsonReportPositive) : Prop :=
  positives.map (fun p => idSeqVal p.id) =
      (List.range positives.length).map (· + 1) ∧
    ∀ p ∈ positives, ∃ k, 1 ≤ k ∧ IsPositiveId p k

/-- The full loop invariant of the classification pass. -/
def ClassifyInv (st : ClassifyState) : Prop :=
  st.issueIndex = st.issues.length ∧ st.positiveIndex = st.positives.length ∧
    IssuesIdInv st.issues ∧ PositivesIdInv st.positives

/-! ### Concrete fixtures (witnesses and counterexamples) -/

def zeroUsage : Usage := ⟨0, 0⟩

def okCapture : Capture := ⟨1, [], 100⟩

def okEvaluation : Evaluation :=
  { result := .met, reality := "the page reacted", notes := [], suggestions := [],
    userQuote := none }

/-- A step whose collaborators all succeed (`met`, no notes, no cost). -/
def okStepEnv : StepEnv :=
  { beforeCapture := .ok okCapture
    analyze := .ok (⟨"a screen", [], []⟩, zeroUsage)
    expectation := .ok (⟨"something happens", none, none⟩, zeroUsage)
    decide := .ok (⟨.click, some "e1", none, none, "looks clickable"⟩, zeroUsage)
    executeAction := .ok ⟨true, none, 50⟩
    afterCapture := .ok okCapture
    evaluate := .ok (okEvaluation, zeroUsage) }

/-- A step whose very first collaborator call (the capture) throws. -/
def failStepEnv : StepEnv :=
  { okStepEnv with beforeCapture := .error "page closed" }

/-- A step whose action execution reports `success:false` without throwing. -/
def failedActionStepEnv : StepEnv :=
  { okStepEnv with executeAction := .ok ⟨false, some "Element not found", 120⟩ }

def cfgW : SessionConfig :=
  { url := "https://example.com"
    persona := "Jana, 45 let"
    intent := none
    explore := true
    maxSteps := 1
    timeout := 300
    waitBetweenActions := 2
    credentials := none
    outputPath := "report.md"
    debug := .off
    budgetCZK := 50
    jsonOutputPath := none }

/-- An environment in which every collaborator succeeds. -/
def envW : SessionEnv :=
  { launch := .ok ()
    navigate := .ok ()
    getPage := true
    initialCapture := .ok okCapture
    pageContext := .ok ("an e-shop landing page", zeroUsage)
    stepEnv := fun _ => okStepEnv
    summarize := fun _ => .ok ("made progress", zeroUsage)
    close := .ok ()
    videoPath := none
    saveReport := .ok ()
    saveJson := .ok ()
    clock := fun _ => 1000
    czkPerUsd := 47 / 2
    initialCost := ⟨0, 0⟩ }

def emptySessionReport : SessionReport :=
  { config := cfgW, startTime := 0, endTime := 0, steps := []
    summary := ⟨0, 0, [], [], []⟩, cost := ⟨0, 0, 0, 0⟩ }

def reportW : SessionReport :=
  ((runSession cfgW envW).result.toOption).getD emptySessionReport

/-- `navigate` throws after a successful `launch`. -/
def envNavFail : SessionEnv :=
  { envW with navigate := .error "net::ERR_CONNECTION_REFUSED" }

/-- A 2-step configuration for the error/timeout comparison. -/
def cfgC : SessionConfig := { cfgW with maxSteps := 2, timeout := 10 }

/-- Step 1 succeeds, step 2 throws (step error termination). -/
def envErrStep : SessionEnv :=
  { envW with
    stepEnv := fun n => if n = 1 then okStepEnv else failStepEnv
    clock := fun k => if k = 4 then 2000 else 1000 }

/-- Step 1 succeeds, then the clock jumps past the timeout before iteration 2
(timeout termination); the same readings are consumed otherwise. -/
def envTimeoutStep : SessionEnv :=
  { envW with
    clock := fun k => if k = 3 then 20000 else if k = 4 then 2000 else 1000 }

/-- The budget scenario configuration: `maxSteps=3`, `budgetCZK=1`. -/
def cfg5 : SessionConfig := { cfgW with maxSteps := 3, budgetCZK := 1 }

/-- Step 1's screen analysis consumes 2 input + 5333 output tokens: at
25 CZK/USD that is `(2·3 + 5333·15)/10⁶ · 25 = 2.000025` CZK — the "step 1
alone costs ≈ 2 CZK" of the scenario. -/
def step1Env5 : StepEnv :=
  { okStepEnv with analyze := .ok (⟨"a screen", [], []⟩, ⟨2, 5333⟩) }

def env5 : SessionEnv :=
  { envW with
    stepEnv := fun _ => step1Env5
    czkPerUsd := 25
    clock := fun k => if k = 4 then 2000 else 1000 }

/-- The same run but with the clock jumping past the timeout at iteration 2:
the timeout check precedes the budget check, so this run is terminated as a
timeout instead. -/
def env5T : SessionEnv :=
  { env5 with
    clock := fun k => if k = 3 then 400000 else if k = 4 then 2000 else 1000 }

def report5 : SessionReport :=
  ((runSession cfg5 env5).result.toOption).getD emptySessionReport

/-- A note that matches the issue-keyword filter (`'missing'`). -/
def noteMissing : String := "The search box is missing entirely"

/-- A step whose evaluation carries `noteMissing`. -/
def noteStepEnv : StepEnv :=
  { okStepEnv with
    evaluate := .ok ({ okEvaluation with notes := [noteMissing] }, zeroUsage) }

/-- 2-step run in which both steps produce `noteMissing`. -/
def cfgN : SessionConfig := { cfgW with maxSteps := 2 }

def envN : SessionEnv := { envW with stepEnv := fun _ => noteStepEnv }

def reportN : SessionReport :=
  ((runSession cfgN envN).result.toOption).getD emptySessionReport

def dfltStep : StepResult :=
  { stepNumber := 0, timestamp := 0, screenshot := 0
    analysis := ⟨"", [], []⟩, expectation := ⟨"", none, none⟩
    action := ⟨.read, none, none, none, ""⟩
    evaluation := ⟨.met, "", [], [], none⟩ }

def lastStepN : StepResult := (reportN.steps.getLast?).getD dfltStep

/-! ## Theorems -/

/-! ### Helper lemmas: the intuitiveness score -/

theorem foldl_sub_penalty (steps : List StepResult) (init : ℚ) :
    steps.foldl (fun s step => s - stepPenalty step.evaluation.result) init =
      init - (steps.map (fun step => stepPenalty step.evaluation.result)).sum := by
  induction steps generalizing init with
  | nil => simp
  | cons a t ih => simp [ih]; ring

theorem sum_penalty_eq_twice (steps : List StepResult) :
    (steps.map (fun step => stepPenalty step.evaluation.result)).sum =
      ((steps.map (fun step => twicePenalty step.evaluation.result)).sum : ℚ) / 2 := by
  induction steps with
  | nil => simp
  | cons a t ih =>
    rw [List.map_cons, List.map_cons, List.sum_cons, List.sum_cons, ih]
    cases h : a.evaluation.result <;>
      push_cast [stepPenalty, twicePenalty] <;> ring

theorem jsMathRound_intCast (n : ℤ) : jsMathRound (n : ℚ) = n := by
  unfold jsMathRound
  rw [Int.floor_eq_iff]
  constructor
  · linarith
  · linarith

/-- C1. The intuitiveness score function, applied to any list of step
results, equals the spec's reference definition (start at 10.0, subtract the
fixed penalty per outcome — met 0, partial 1, unmet 2, surprised 1.5 —
clamp to [0, 10], round to one decimal place), and the empty step list
yields exactly 5.0. -/
theorem calculateIntuitivenessScore_matches_spec :
    (∀ steps : List StepResult,
        calculateIntuitivenessScore steps = specIntuitivenessScore steps) ∧
    calculateIntuitivenessScore [] = 5 := by
  constructor
  · intro steps
    by_cases hnil : steps = []
    · subst hnil; simp [calculateIntuitivenessScore, specIntuitivenessScore]
    · have hlen : ¬ steps.length = 0 := by simpa using hnil
      unfold calculateIntuitivenessScore specIntuitivenessScore
      rw [if_neg hlen, if_neg hnil, foldl_sub_penalty, sum_penalty_eq_twice]
      set H := (steps.map (fun step => twicePenalty step.evaluation.result)).sum with hH
      dsimp only
      have hcast : ((10 : ℚ) - (H : ℚ) / 2) * 10 = (((100 - 5 * (H : ℤ)) : ℤ) : ℚ) := by
        push_cast; ring
      have hdiv : ((((100 - 5 * (H : ℤ)) : ℤ) : ℚ)) / 10 = 10 - (H : ℚ) / 2 := by
        push_cast; ring
      have hHnn : (0 : ℚ) ≤ (H : ℚ) := by positivity
      rcases le_or_lt (H : ℚ) 20 with hle | hgt
      · have hv0 : (0 : ℚ) ≤ 10 - (H : ℚ) / 2 := by linarith
        have hv10 : (10 : ℚ) - (H : ℚ) / 2 ≤ 10 := by linarith
        rw [hcast, jsMathRound_intCast, hdiv, min_eq_right hv10, max_eq_right hv0,
          hcast, jsMathRound_intCast, hdiv]
      · have hv0 : 10 - (H : ℚ) / 2 < 0 := by linarith
        have hv10 : (10 : ℚ) - (H : ℚ) / 2 ≤ 10 := by linarith
        rw [hcast, jsMathRound_intCast, hdiv, min_eq_right hv10,
          max_eq_left (le_of_lt hv0)]
        norm_num [jsMathRound]
  · simp [calculateIntuitivenessScore]

/-! ### C7: sentiment classification rule -/

/-- C7. `classifyNoteSentiment` follows the stated rules for every note: a
contrastive conjunction together with at least one negative-keyword hit
forces `negative`; otherwise the strictly higher of the two keyword scores
wins; a tie with both scores zero is `neutral`; any other tie (equal nonzero
scores) is `negative`. -/
theorem classifyNoteSentiment_rule (note : String) :
    classifyNoteSentiment note =
      if noteHasButMarker note = true ∧ 0 < noteNegativeScore note then
        NoteSentiment.negative
      else if notePositiveScore note < noteNegativeScore note then .negative
      else if noteNegativeScore note < notePositiveScore note then .positive
      else if noteNegativeScore note = 0 ∧ notePositiveScore note = 0 then .neutral
      else .negative := by
  unfold classifyNoteSentiment
  dsimp only
  split_ifs <;> first | rfl | omega

/-! ### C10: JSON summary counts -/

theorem jsonSteps_result_count (l : List JsonReportStep) :
    (l.filter fun s =>
        decide (s.result = JsonStepResult.failed) ||
        decide (s.result = JsonStepResult.surprised)).length =
      (l.filter fun s => decide (s.result = JsonStepResult.failed)).length +
        (l.filter fun s => decide (s.result = JsonStepResult.surprised)).length ∧
    (l.filter fun s => decide (s.result = JsonStepResult.met)).length +
        (l.filter fun s => decide (s.result = JsonStepResult.partialRes)).length +
        (l.filter fun s =>
          decide (s.result = JsonStepResult.failed) ||
          decide (s.result = JsonStepResult.surprised)).length = l.length := by
  induction l with
  | nil => simp
  | cons a t ih =>
    obtain ⟨ih1, ih2⟩ := ih
    cases h : a.result <;> simp [List.filter_cons, h, ih1] <;> omega

/-- C10. In the JSON report, steps whose mapped result is `surprised` are
counted under `summary.failed` together with `failed` steps, so
`met + partial + failed = total_steps` always holds. -/
theorem buildJsonReport_surprised_counts_as_failed (toISO : ℕ → String)
    (report : SessionReport) (videoPath : Option String) :
    (buildJsonReport toISO report videoPath).summary.failed =
      ((buildJsonReport toISO report videoPath).steps.filter
        (fun s => decide (s.result = JsonStepResult.failed))).length +
      ((buildJsonReport toISO report videoPath).steps.filter
        (fun s => decide (s.result = JsonStepResult.surprised))).length ∧
    (buildJsonReport toISO report videoPath).summary.met +
      (buildJsonReport toISO report videoPath).summary.partialSteps +
      (buildJsonReport toISO report videoPath).summary.failed =
      (buildJsonReport toISO report videoPath).summary.total_steps := by
  unfold buildJsonReport
  dsimp only
  exact jsonSteps_result_count (buildJsonSteps report.steps)

/-! ### C6: an action-execution failure does not abort the step -/

/-- C6. If `browser.executeAction` returns `success:false` without throwing
and the remaining collaborators answer, `executeStep` does not abort: it
performs the settle wait, the after-capture and the evaluation call (the
failure is only logged), and returns a complete `StepResult`. -/
theorem executeStep_actionFailure_completes
    (n : ℕ) (env : StepEnv) (cost : CostState)
    (cap1 : Capture) (an : ScreenAnalysis) (u1 : Usage) (ex : Expectation)
    (u2 : Usage) (de : ActionDecision) (u3 : Usage) (ar : ActionResult)
    (cap2 : Capture) (ev : Evaluation) (u4 : Usage)
    (h1 : env.beforeCapture = .ok cap1) (h2 : env.analyze = .ok (an, u1))
    (h3 : env.expectation = .ok (ex, u2)) (h4 : env.decide = .ok (de, u3))
    (h5 : env.executeAction = .ok ar) (hfail : ar.success = false)
    (h6 : env.afterCapture = .ok cap2) (h7 : env.evaluate = .ok (ev, u4)) :
    (executeStep n env cost).1 =
      Except.ok
        { stepNumber := n, timestamp := cap1.timestamp,
          screenshot := cap1.screenshot, analysis := an, expectation := ex,
          action := de, evaluation := ev } ∧
    (executeStep n env cost).2.2 =
      [.beforeCaptured n, .analyzed n, .expectationFormulated n,
        .actionDecided n, .actionExecuted n, .logActionFailed n,
        .settleWaited n, .afterCaptured n, .evaluated n] ∧
    (executeStep n env cost).2.1 =
      addUsage (addUsage (addUsage (addUsage cost u1) u2) u3) u4 := by
  unfold executeStep
  rw [h1, h2, h3, h4, h5, h6, h7]
  simp [hfail]

/-- Witness for C6: a concrete step whose action execution reports
`success:false` still completes with a full `StepResult`. -/
theorem executeStep_actionFailure_completes_witness :
    (executeStep 1 failedActionStepEnv ⟨0, 0⟩).1 =
      Except.ok
        { stepNumber := 1, timestamp := okCapture.timestamp,
          screenshot := okCapture.screenshot, analysis := ⟨"a screen", [], []⟩,
          expectation := ⟨"something happens", none, none⟩,
          action := ⟨.click, some "e1", none, none, "looks clickable"⟩,
          evaluation := okEvaluation } ∧
    (executeStep 1 failedActionStepEnv ⟨0, 0⟩).2.2 =
      [.beforeCaptured 1, .analyzed 1, .expectationFormulated 1,
        .actionDecided 1, .actionExecuted 1, .logActionFailed 1,
        .settleWaited 1, .afterCaptured 1, .evaluated 1] ∧
    (executeStep 1 failedActionStepEnv ⟨0, 0⟩).2.1 =
      addUsage (addUsage (addUsage (addUsage ⟨0, 0⟩ zeroUsage) zeroUsage)
        zeroUsage) zeroUsage :=
  executeStep_actionFailure_completes 1 failedActionStepEnv ⟨0, 0⟩
    okCapture ⟨"a screen", [], []⟩ zeroUsage ⟨"something happens", none, none⟩
    zeroUsage ⟨.click, some "e1", none, none, "looks clickable"⟩ zeroUsage
    ⟨false, some "Element not found", 120⟩ okCapture okEvaluation zeroUsage
    rfl rfl rfl rfl rfl rfl rfl rfl

/-! ### Helper lemmas: the step loop -/

theorem executeStep_ok_stepNumber {n : ℕ} {env : StepEnv} {cost : CostState}
    {sr : StepResult}
    (h : (executeStep n env cost).1 = Except.ok sr) :
    sr.stepNumber = n := by
  unfold executeStep at h
  repeat' split at h
  all_goals try dsimp only at h
  all_goals
    first
      | exact Except.noConfusion h
      | (injection h with h1; rw [← h1])

/-- The steps a loop run over `range' k m` produces are numbered
`k, k+1, ...` contiguously, and there are at most `m` of them. -/
theorem runLoop_range'_steps (config : SessionConfig) (env : SessionEnv)
    (t : ℕ) :
    ∀ (m k : ℕ) (ctx : SessionContext) (cost : CostState) (ci : ℕ),
      (runLoop config env t (List.range' k m) ctx cost ci).steps.map
          (·.stepNumber) =
        List.range' k
          (runLoop config env t (List.range' k m) ctx cost ci).steps.length ∧
      (runLoop config env t (List.range' k m) ctx cost ci).steps.length ≤ m := by
  intro m
  induction m with
  | zero => intro k ctx cost ci; simp [runLoop]
  | succ m ih =>
    intro k ctx cost ci
    rw [List.range'_succ k m 1]
    simp only [runLoop]
    split_ifs with h1 h2 hlt
    · simp
    · simp
    · rcases hstep : executeStep k (env.stepEnv k) cost with ⟨res, cost1, sevs⟩
      cases res with
      | error e => simp
      | ok sr =>
        have hn : sr.stepNumber = k :=
          executeStep_ok_stepNumber (by rw [hstep])
        dsimp only
        rcases hsum : env.summarize k with e | ⟨summary, u⟩
        · simp [hn, List.range'_one]
        · obtain ⟨ih1, ih2⟩ :=
            ih (k + 1) (updateContext ctx sr summary) (addUsage cost1 u) (ci + 1)
          dsimp only
          refine ⟨?_, by simpa using ih2⟩
          simpa [hn, List.range'_succ] using ih1
    · rcases hstep : executeStep k (env.stepEnv k) cost with ⟨res, cost1, sevs⟩
      cases res with
      | error e => simp
      | ok sr =>
        have hn : sr.stepNumber = k :=
          executeStep_ok_stepNumber (by rw [hstep])
        dsimp only
        obtain ⟨ih1, ih2⟩ := ih (k + 1) ctx cost1 (ci + 1)
        refine ⟨?_, by simpa using ih2⟩
        simpa [hn, List.range'_succ] using ih1

/-- C4. Every report `runSession` returns has step numbers that are strictly
increasing and contiguous from 1 (the step-number list is exactly `1..n` for
its length `n`), and `n` never exceeds `maxSteps`. -/
theorem runSession_step_numbers (config : SessionConfig) (env : SessionEnv)
    (report : SessionReport)
    (h : (runSession config env).result = Except.ok report) :
    report.steps.map (·.stepNumber) = List.range' 1 report.steps.length ∧
      report.steps.length ≤ config.maxSteps := by
  unfold runSession at h
  rcases hl : env.launch with e | u <;> rw [hl] at h
  · exact absurd h (by simp)
  rcases hn : env.navigate with e | u2 <;> rw [hn] at h
  · exact absurd h (by simp)
  rcases hp : env.getPage with _ | _ <;> rw [hp] at h
  · exact absurd h (by simp)
  rcases hc : env.initialCapture with e | cap <;> rw [hc] at h
  · exact absurd h (by simp)
  rcases hpc : env.pageContext with e | pc <;> rw [hpc] at h
  · exact absurd h (by simp)
  rcases pc with ⟨pcData, u0⟩
  dsimp only at h
  rcases hcl : env.close with e | u3 <;> rw [hcl] at h
  · exact absurd h (by simp)
  rcases hsv : env.saveReport with e | u4 <;> rw [hsv] at h
  · exact absurd h (by simp)
  have hsteps : report.steps =
      (runLoop config env (env.clock 1) (List.range' 1 config.maxSteps)
        (createInitialContext config.intent (some pcData))
        (addUsage env.initialCost u0) 2).steps := by
    rcases hjo : config.jsonOutputPath with _ | p <;> rw [hjo] at h
    · simp only [Except.ok.injEq] at h
      rw [← h]
    · rcases hsj : env.saveJson with e | u5 <;> rw [hsj] at h
      · exact absurd h (by simp)
      · simp only [Except.ok.injEq] at h
        rw [← h]
  rw [hsteps]
  exact runLoop_range'_steps config env (env.clock 1) config.maxSteps 1
    (createInitialContext config.intent (some pcData))
    (addUsage env.initialCost u0) 2

/-- Witness for C4: the all-succeeding one-step environment returns a report
with step list `[1]`. -/
theorem runSession_step_numbers_witness :
    reportW.steps.map (·.stepNumber) = List.range' 1 reportW.steps.length ∧
      reportW.steps.length ≤ cfgW.maxSteps :=
  runSession_step_numbers cfgW envW reportW (by with_unfolding_all rfl)

/-! ### C2: browser acquisition/release -/

theorem executeStep_events_no_resource (n : ℕ) (env : StepEnv)
    (cost : CostState) :
    Event.launched ∉ (executeStep n env cost).2.2 ∧
    Event.closeInvoked ∉ (executeStep n env cost).2.2 := by
  unfold executeStep
  repeat' split
  all_goals dsimp only
  all_goals constructor <;> simp

theorem runLoop_events_no_resource (config : SessionConfig) (env : SessionEnv)
    (t : ℕ) :
    ∀ (ns : List ℕ) (ctx : SessionContext) (cost : CostState) (ci : ℕ),
      Event.launched ∉ (runLoop config env t ns ctx cost ci).events ∧
      Event.closeInvoked ∉ (runLoop config env t ns ctx cost ci).events := by
  intro ns
  induction ns with
  | nil => intro ctx cost ci; simp [runLoop]
  | cons n rest ih =>
    intro ctx cost ci
    simp only [runLoop]
    split_ifs with h1 h2 hlt
    · simp
    · simp
    · rcases hstep : executeStep n (env.stepEnv n) cost with ⟨res, cost1, sevs⟩
      have hsev : Event.launched ∉ sevs ∧ Event.closeInvoked ∉ sevs := by
        have hx := executeStep_events_no_resource n (env.stepEnv n) cost
        rwa [hstep] at hx
      cases res with
      | error e =>
        dsimp only
        constructor <;> simp [hsev.1, hsev.2]
      | ok sr =>
        dsimp only
        rcases hsum : env.summarize n with e | ⟨summary, u⟩
        · dsimp only
          constructor <;> simp [hsev.1, hsev.2]
        · dsimp only
          obtain ⟨ih1, ih2⟩ :=
            ih (updateContext ctx sr summary) (addUsage cost1 u) (ci + 1)
          constructor <;> simp [hsev.1, hsev.2, ih1, ih2]
    · rcases hstep : executeStep n (env.stepEnv n) cost with ⟨res, cost1, sevs⟩
      have hsev : Event.launched ∉ sevs ∧ Event.closeInvoked ∉ sevs := by
        have hx := executeStep_events_no_resource n (env.stepEnv n) cost
        rwa [hstep] at hx
      cases res with
      | error e =>
        dsimp only
        constructor <;> simp [hsev.1, hsev.2]
      | ok sr =>
        dsimp only
        obtain ⟨ih1, ih2⟩ := ih ctx cost1 (ci + 1)
        constructor <;> simp [hsev.1, hsev.2, ih1, ih2]

/-- C2 (amended). Whenever the setup phase succeeds (launch, navigate, page
retrieval, initial capture and page-context call), the browser is acquired
exactly once and `browser.close()` is invoked exactly once, regardless of
how the step loop terminates and of the outcome of close and the report
writers. -/
theorem runSession_resource_release (config : SessionConfig) (env : SessionEnv)
    (hl : env.launch = Except.ok ()) (hnav : env.navigate = Except.ok ())
    (hp : env.getPage = true) (cap : Capture)
    (hc : env.initialCapture = Except.ok cap) (pcData : String) (u0 : Usage)
    (hpc : env.pageContext = Except.ok (pcData, u0)) :
    (runSession config env).events.count Event.launched = 1 ∧
    (runSession config env).events.count Event.closeInvoked = 1 := by
  unfold runSession
  rw [hl, hnav, hp, hc, hpc]
  dsimp only
  obtain ⟨hL, hC⟩ := runLoop_events_no_resource config env (env.clock 1)
    (List.range' 1 config.maxSteps)
    (createInitialContext config.intent (some pcData))
    (addUsage env.initialCost u0) 2
  rcases hcl : env.close with e3 | u3 <;>
    rcases hsv : env.saveReport with e4 | u4 <;>
    rcases hjo : config.jsonOutputPath with _ | p <;>
    rcases hsj : env.saveJson with e5 | u5 <;>
    dsimp only <;>
    simp [List.count_append, List.count_cons,
      List.count_eq_zero.mpr hL, List.count_eq_zero.mpr hC]

/-- Witness for C2's amended theorem at the all-succeeding environment. -/
theorem runSession_resource_release_witness :
    (runSession cfgW envW).events.count Event.launched = 1 ∧
    (runSession cfgW envW).events.count Event.closeInvoked = 1 :=
  runSession_resource_release cfgW envW rfl rfl rfl okCapture rfl
    "an e-shop landing page" zeroUsage rfl

/-- Counterexample to C2 as stated: when `navigate` throws after a
successful `launch`, the exception propagates and `browser.close()` is never
invoked — the browser is acquired once but released zero times. -/
theorem runSession_navigate_throw_leaks_browser :
    (runSession cfgW envNavFail).events.count Event.launched = 1 ∧
    (runSession cfgW envNavFail).events.count Event.closeInvoked = 0 ∧
    (runSession cfgW envNavFail).result =
      Except.error "net::ERR_CONNECTION_REFUSED" := by
  refine ⟨?_, ?_, ?_⟩ <;> with_unfolding_all rfl

/-! ### C3: a step exception breaks the loop but still yields a report -/

/-- C3 (amended). When a step throws, the loop breaks and `runSession` still
returns a `SessionReport` with the steps that completed (never more than
`maxSteps`); the failure is recorded only in the log events — the report
itself carries no error indicator, and is identical to the report of a
timeout-terminated run with the same completed steps. -/
theorem runSession_step_failure_still_produces_report :
    (∀ (config : SessionConfig) (env : SessionEnv),
        env.launch = Except.ok () → env.navigate = Except.ok () →
        env.getPage = true → (∃ cap, env.initialCapture = Except.ok cap) →
        (∃ pc u0, env.pageContext = Except.ok (pc, u0)) →
        env.close = Except.ok () → env.saveReport = Except.ok () →
        (config.jsonOutputPath = none ∨ env.saveJson = Except.ok ()) →
        ∃ report, (runSession config env).result = Except.ok report ∧
          report.steps.length ≤ config.maxSteps) ∧
    (runSession cfgC envErrStep).events.count (Event.logStepFailed 2) = 1 ∧
    (runSession cfgC envErrStep).result = (runSession cfgC envTimeoutStep).result := by
  refine ⟨?_, by with_unfolding_all rfl, by with_unfolding_all rfl⟩
  intro config env hl hnav hp hc hpc hcl hsv hjs
  obtain ⟨cap, hc⟩ := hc
  obtain ⟨pc, u0, hpc⟩ := hpc
  unfold runSession
  rw [hl, hnav, hp, hc, hpc, hcl, hsv]
  dsimp only
  have hlen := (runLoop_range'_steps config env (env.clock 1) config.maxSteps 1
    (createInitialContext config.intent (some pc))
    (addUsage env.initialCost u0) 2).2
  rcases hjo : config.jsonOutputPath with _ | p
  · exact ⟨_, rfl, hlen⟩
  · rcases hjs with hjn | hjs
    · exact absurd hjo (by rw [hjn]; simp)
    · rw [hjs]
      exact ⟨_, rfl, hlen⟩

/-- Counterexample to C3 as stated: a run whose step 2 throws and a run that
times out before step 2 produce **equal** reports — the report carries no
error indicator distinguishing the failed session from a planned
termination. -/
theorem sessionReport_error_vs_timeout_equal :
    (runSession cfgC envErrStep).result = (runSession cfgC envTimeoutStep).result ∧
    (runSession cfgC envErrStep).result.isOk = true ∧
    (runSession cfgC envErrStep).events.count (Event.logStepFailed 2) = 1 ∧
    (runSession cfgC envErrStep).events.count Event.logTimeout = 0 ∧
    (runSession cfgC envTimeoutStep).events.count Event.logTimeout = 1 ∧
    (runSession cfgC envTimeoutStep).events.count (Event.logStepFailed 2) = 0 := by
  refine ⟨?_, ?_, ?_, ?_, ?_, ?_⟩ <;> with_unfolding_all rfl

/-! ### C5: the budget scenario -/

/-- C5 (amended). In the scenario `maxSteps=3`, `budgetCZK=1`, step 1 alone
costing ≈2 CZK, the orchestrator executes step 1 to completion, terminates
at the boundary before step 2 (step 2 is never started), and produces a
report with exactly 1 step; the budget termination is indicated only by the
logged budget message, not by anything in the report. -/
theorem runSession_budget_scenario :
    (runSession cfg5 env5).result = Except.ok report5 ∧
    report5.steps.map (·.stepNumber) = [1] ∧
    (runSession cfg5 env5).events.count (Event.stepStarted 1) = 1 ∧
    (runSession cfg5 env5).events.count (Event.stepStarted 2) = 0 ∧
    (runSession cfg5 env5).events.count Event.logBudget = 1 ∧
    isOverBudget cfg5.budgetCZK env5.czkPerUsd ⟨2, 5333⟩ = true := by
  refine ⟨?_, ?_, ?_, ?_, ?_, ?_⟩ <;> with_unfolding_all rfl

/-- Counterexample to C5 as stated: the scenario's report contains no
budget-termination indicator — it is **equal** to the report of a run with
the same configuration that is terminated by the timeout check instead. -/
theorem runSession_budget_no_indicator :
    (runSession cfg5 env5).result = (runSession cfg5 env5T).result ∧
    (runSession cfg5 env5).events.count Event.logBudget = 1 ∧
    (runSession cfg5 env5T).events.count Event.logBudget = 0 ∧
    (runSession cfg5 env5T).events.count Event.logTimeout = 1 := by
  refine ⟨?_, ?_, ?_, ?_⟩ <;> with_unfolding_all rfl

/-! ### C9: the context update is skipped for the final step -/

/-- A loop run over `range' k m` that completes all `m` steps (with
`k + m = maxSteps + 1`, i.e. the numbers end exactly at `maxSteps`)
increments the context's step counter only `m - 1` times and appends issue
notes only from the steps before the last. -/
theorem runLoop_full_run (config : SessionConfig) (env : SessionEnv) (t : ℕ) :
    ∀ (m k : ℕ) (ctx : SessionContext) (cost : CostState) (ci : ℕ),
      k + m = config.maxSteps + 1 →
      (runLoop config env t (List.range' k m) ctx cost ci).steps.length = m →
      (runLoop config env t (List.range' k m) ctx cost ci).context.stepCount =
          ctx.stepCount + (m - 1) ∧
        (runLoop config env t (List.range' k m) ctx cost ci).context.issuesFound =
          ctx.issuesFound ++
            ((runLoop config env t (List.range' k m) ctx cost ci).steps.dropLast.map
              (fun sr => sr.evaluation.notes.filter noteHasIssueKeyword)).flatten := by
  intro m
  induction m with
  | zero =>
    intro k ctx cost ci hk hlen
    simp [runLoop]
  | succ m ih =>
    intro k ctx cost ci hk hlen
    rw [List.range'_succ k m 1] at hlen ⊢
    simp only [runLoop] at hlen ⊢
    split_ifs at hlen ⊢ with h1 h2 hlt
    · simp at hlen
    · simp at hlen
    · rcases hstep : executeStep k (env.stepEnv k) cost with ⟨res, cost1, sevs⟩
      rw [hstep] at hlen
      cases res with
      | error e => simp at hlen
      | ok sr =>
        dsimp only at hlen ⊢
        rcases hsum : env.summarize k with e | ⟨summary, u⟩ <;> rw [hsum] at hlen
        · simp at hlen
          omega
        · dsimp only at hlen ⊢
          have hm : (runLoop config env t (List.range' (k + 1) m)
              (updateContext ctx sr summary) (addUsage cost1 u) (ci + 1)).steps.length
              = m := by
            simpa using hlen
          obtain ⟨ih1, ih2⟩ := ih (k + 1) (updateContext ctx sr summary)
            (addUsage cost1 u) (ci + 1) (by omega) hm
          have hm1 : 1 ≤ m := by omega
          have hne : (runLoop config env t (List.range' (k + 1) m)
              (updateContext ctx sr summary) (addUsage cost1 u) (ci + 1)).steps ≠ [] := by
            intro hnil
            rw [hnil] at hm
            simp at hm
            omega
          constructor
          · rw [ih1]
            simp only [updateContext]
            omega
          · rw [ih2, List.dropLast_cons_of_ne_nil hne]
            simp only [updateContext]
            simp [List.append_assoc]
    · rcases hstep : executeStep k (env.stepEnv k) cost with ⟨res, cost1, sevs⟩
      rw [hstep] at hlen
      cases res with
      | error e => simp at hlen
      | ok sr =>
        have hm : m = 0 := by omega
        subst hm
        dsimp only at hlen ⊢
        simp [runLoop]

/-- C9 (amended). In a run of `runSession` that successfully completes the
step numbered `maxSteps`: the step loop never applies the context update
after the final step (the final `SessionContext` has
`stepCount = maxSteps - 1`), the report's `summary.issuesFound` is computed
from the issue-keyword notes of the steps **before** the last only (so a
final-step note appears there only if an earlier step also produced the same
string), and the final step itself still appears in the report's step
list. -/
theorem runSession_final_step_update_skipped
    (config : SessionConfig) (env : SessionEnv) (report : SessionReport)
    (h : (runSession config env).result = Except.ok report)
    (hfull : report.steps.length = config.maxSteps)
    (hpos : 1 ≤ config.maxSteps) :
    report.summary.issuesFound =
      jsSetDedup ((report.steps.dropLast.map
        (fun sr => sr.evaluation.notes.filter noteHasIssueKeyword)).flatten) ∧
    (report.steps.map (·.stepNumber)).getLast? = some config.maxSteps ∧
    (∀ pc u0, env.pageContext = Except.ok (pc, u0) →
      (runLoop config env (env.clock 1) (List.range' 1 config.maxSteps)
          (createInitialContext config.intent (some pc))
          (addUsage env.initialCost u0) 2).context.stepCount =
        config.maxSteps - 1) := by
  unfold runSession at h
  rcases hl : env.launch with e | u <;> rw [hl] at h
  · exact absurd h (by simp)
  rcases hnav : env.navigate with e | u2 <;> rw [hnav] at h
  · exact absurd h (by simp)
  rcases hp : env.getPage with _ | _ <;> rw [hp] at h
  · exact absurd h (by simp)
  rcases hc : env.initialCapture with e | cap <;> rw [hc] at h
  · exact absurd h (by simp)
  rcases hpc : env.pageContext with e | pc <;> rw [hpc] at h
  · exact absurd h (by simp)
  rcases pc with ⟨pcData, u0⟩
  dsimp only at h
  rcases hcl : env.close with e | u3 <;> rw [hcl] at h
  · exact absurd h (by simp)
  rcases hsv : env.saveReport with e | u4 <;> rw [hsv] at h
  · exact absurd h (by simp)
  have hrep : report =
      { config := config
        startTime := env.clock 0
        endTime := env.clock (runLoop config env (env.clock 1)
          (List.range' 1 config.maxSteps)
          (createInitialContext config.intent (some pcData))
          (addUsage env.initialCost u0) 2).clockIdx
        steps := (runLoop config env (env.clock 1)
          (List.range' 1 config.maxSteps)
          (createInitialContext config.intent (some pcData))
          (addUsage env.initialCost u0) 2).steps
        summary := generateSummary
          (runLoop config env (env.clock 1) (List.range' 1 config.maxSteps)
            (createInitialContext config.intent (some pcData))
            (addUsage env.initialCost u0) 2).steps
          (runLoop config env (env.clock 1) (List.range' 1 config.maxSteps)
            (createInitialContext config.intent (some pcData))
            (addUsage env.initialCost u0) 2).context.issuesFound
        cost :=
          { inputTokens := (runLoop config env (env.clock 1)
              (List.range' 1 config.maxSteps)
              (createInitialContext config.intent (some pcData))
              (addUsage env.initialCost u0) 2).cost.inputTokens
            outputTokens := (runLoop config env (env.clock 1)
              (List.range' 1 config.maxSteps)
              (createInitialContext config.intent (some pcData))
              (addUsage env.initialCost u0) 2).cost.outputTokens
            totalCostUSD := getTotalCostUSD (runLoop config env (env.clock 1)
              (List.range' 1 config.maxSteps)
              (createInitialContext config.intent (some pcData))
              (addUsage env.initialCost u0) 2).cost
            totalCostCZK := getTotalCostCZK env.czkPerUsd
              (runLoop config env (env.clock 1) (List.range' 1 config.maxSteps)
                (createInitialContext config.intent (some pcData))
                (addUsage env.initialCost u0) 2).cost } } := by
    rcases hjo : config.jsonOutputPath with _ | p <;> rw [hjo] at h
    · simp only [Except.ok.injEq] at h
      rw [← h]
    · rcases hsj : env.saveJson with e | u5 <;> rw [hsj] at h
      · exact absurd h (by simp)
      · simp only [Except.ok.injEq] at h
        rw [← h]
  have hsteps : report.steps = (runLoop config env (env.clock 1)
      (List.range' 1 config.maxSteps)
      (createInitialContext config.intent (some pcData))
      (addUsage env.initialCost u0) 2).steps := by rw [hrep]
  have hlen : (runLoop config env (env.clock 1) (List.range' 1 config.maxSteps)
      (createInitialContext config.intent (some pcData))
      (addUsage env.initialCost u0) 2).steps.length = config.maxSteps := by
    rw [← hsteps]; exact hfull
  obtain ⟨hcount, hissues⟩ := runLoop_full_run config env (env.clock 1)
    config.maxSteps 1 (createInitialContext config.intent (some pcData))
    (addUsage env.initialCost u0) 2 (by omega) hlen
  refine ⟨?_, ?_, ?_⟩
  · rw [hrep]
    simp only [generateSummary]
    rw [hissues]
    simp [createInitialContext, hsteps]
  · obtain ⟨hshape, -⟩ := runLoop_range'_steps config env (env.clock 1)
      config.maxSteps 1 (createInitialContext config.intent (some pcData))
      (addUsage env.initialCost u0) 2
    rw [hsteps, hshape, hlen]
    obtain ⟨m, hm⟩ : ∃ m, config.maxSteps = m + 1 :=
      ⟨config.maxSteps - 1, by omega⟩
    rw [hm, List.range'_concat]
    rw [List.getLast?_concat]
    simp
    omega
  · intro pc u0' hpc'
    try rw [hpc] at hpc'
    injection hpc' with hpair
    injection hpair with he1 he2
    subst he1
    subst he2
    rw [hcount]
    simp [createInitialContext]

/-- Witness for C9's amended theorem: the 2-step run `envN` completes both
steps; its final context counted one update and the summary's issue list is
built from step 1's notes only. -/
theorem runSession_final_step_update_skipped_witness :
    reportN.summary.issuesFound =
      jsSetDedup ((reportN.steps.dropLast.map
        (fun sr => sr.evaluation.notes.filter noteHasIssueKeyword)).flatten) ∧
    (reportN.steps.map (·.stepNumber)).getLast? = some cfgN.maxSteps ∧
    (∀ pc u0, envN.pageContext = Except.ok (pc, u0) →
      (runLoop cfgN envN (envN.clock 1) (List.range' 1 cfgN.maxSteps)
          (createInitialContext cfgN.intent (some pc))
          (addUsage envN.initialCost u0) 2).context.stepCount =
        cfgN.maxSteps - 1) :=
  runSession_final_step_update_skipped cfgN envN reportN
    (by with_unfolding_all rfl) (by with_unfolding_all rfl)
    (of_decide_eq_true (by with_unfolding_all rfl))

/-- Counterexample to C9 as stated: in a 2-step run in which both steps
produce the same issue-keyword note, that note — a note of the final step —
**is** present in the report's `summary.issuesFound` (contributed by step 1),
refuting the claim's "hence absent from summary.issuesFound". -/
theorem runSession_final_note_in_summary :
    (runSession cfgN envN).result = Except.ok reportN ∧
    reportN.steps.map (·.stepNumber) = [1, 2] ∧
    reportN.steps.getLast? = some lastStepN ∧
    lastStepN.stepNumber = cfgN.maxSteps ∧
    noteMissing ∈ lastStepN.evaluation.notes ∧
    noteMissing ∈ reportN.summary.issuesFound := by
  refine ⟨?_, ?_, ?_, ?_, ?_, ?_⟩ <;>
    first
      | with_unfolding_all rfl
      | exact of_decide_eq_true (by with_unfolding_all rfl)

/-! ### C8: helper lemmas on decimal id strings -/

theorem string_data_append (a b : String) : (a ++ b).data = a.data ++ b.data := by
  cases a
  cases b
  rfl

theorem decDigitChar_ne_dash (k : ℕ) : decDigitChar k ≠ '-' := by
  unfold decDigitChar
  split <;> decide

theorem decDigitChar_val (k : ℕ) (h : k < 10) : (decDigitChar k).toNat - 48 = k := by
  interval_cases k <;> decide

theorem foldl_digits (l : List Char) (acc : ℕ) :
    List.foldl (fun a c => a * 10 + (c.toNat - 48)) acc l.reverse =
      acc * 10 ^ l.length + digitsValLE l := by
  induction l generalizing acc with
  | nil => simp [digitsValLE]
  | cons c t ih =>
    rw [List.reverse_cons, List.foldl_append, ih]
    simp only [digitsValLE, List.foldl_cons, List.foldl_nil, List.length_cons]
    ring

theorem digitsValLE_decDigitsAux (n : ℕ) :
    digitsValLE (decDigitsAux n) = n := by
  induction n using Nat.strong_induction_on with
  | _ n ih =>
    rw [decDigitsAux]
    by_cases h : n = 0
    · simp [h, digitsValLE]
    · rw [dif_neg h]
      have h10 : n % 10 < 10 := Nat.mod_lt _ (by norm_num)
      have hdiv : n / 10 < n := Nat.div_lt_self (Nat.pos_of_ne_zero h) (by norm_num)
      simp only [digitsValLE, decDigitChar_val _ h10, ih _ hdiv]
      omega

theorem decValueList_jsNatToString (n : ℕ) :
    decValueList (jsNatToString n).data = n := by
  unfold jsNatToString
  by_cases h : n = 0
  · simp [h, decValueList]
  · rw [if_neg h]
    show List.foldl _ 0 (decDigitsAux n).reverse = n
    rw [foldl_digits]
    simp [digitsValLE_decDigitsAux]

theorem foldl_zeros (k : ℕ) (l : List Char) :
    List.foldl (fun a c => a * 10 + (c.toNat - 48)) 0
        (List.replicate k '0' ++ l) =
      List.foldl (fun a c => a * 10 + (c.toNat - 48)) 0 l := by
  induction k with
  | zero => simp
  | succ k ih => simpa using ih

theorem decValueList_padStart3 (s : String) :
    decValueList (padStart3 s).data = decValueList s.data := by
  unfold padStart3 decValueList
  exact foldl_zeros _ _

theorem mem_decDigitsAux_ne_dash (n : ℕ) :
    ∀ c ∈ decDigitsAux n, c ≠ '-' := by
  induction n using Nat.strong_induction_on with
  | _ n ih =>
    rw [decDigitsAux]
    by_cases h : n = 0
    · simp [h]
    · rw [dif_neg h]
      intro c hc
      rcases List.mem_cons.mp hc with hc | hc
      · rw [hc]; exact decDigitChar_ne_dash _
      · exact ih (n / 10) (Nat.div_lt_self (Nat.pos_of_ne_zero h) (by norm_num)) c hc

theorem padStart3_no_dash (n : ℕ) :
    ∀ c ∈ (padStart3 (jsNatToString n)).data, c ≠ '-' := by
  unfold padStart3 jsNatToString
  intro c hc
  rcases List.mem_append.mp hc with hc | hc
  · rw [List.eq_of_mem_replicate hc]; decide
  · by_cases h : n = 0
    · rw [if_pos h] at hc
      simp at hc
      rw [hc]; decide
    · rw [if_neg h] at hc
      exact mem_decDigitsAux_ne_dash n c (List.mem_reverse.mp hc)

theorem takeWhile_all_append (p : Char → Bool) (u : List Char) (x : Char)
    (v : List Char) (hu : ∀ c ∈ u, p c = true) (hx : p x = false) :
    (u ++ x :: v).takeWhile p = u := by
  induction u with
  | nil => simp [List.takeWhile, hx]
  | cons a t ih =>
    have ha : p a = true := hu a (List.mem_cons_self a t)
    simp only [List.cons_append, List.takeWhile_cons, ha, if_true]
    rw [ih (fun c hc => hu c (List.mem_cons_of_mem a hc))]

/-- The sequence-number extraction: for any string of the form
`a ++ "-" ++ pad` with a dash-free `pad`, `idSeqVal` reads off the decimal
value of `pad`. -/
theorem idSeqVal_concat (a pad : String) (hpad : ∀ c ∈ pad.data, c ≠ '-') :
    idSeqVal (a ++ "-" ++ pad) = decValueList pad.data := by
  unfold idSeqVal
  have hdata : (a ++ "-" ++ pad).data = (a.data ++ ['-']) ++ pad.data := by
    rw [string_data_append, string_data_append]
  rw [hdata, List.reverse_append, List.reverse_append]
  have hrev : ∀ c ∈ pad.data.reverse, (fun c => decide (c ≠ '-')) c = true := by
    intro c hc
    simpa using hpad c (List.mem_reverse.mp hc)
  rw [show ['-'].reverse ++ a.data.reverse = '-' :: a.data.reverse from rfl]
  rw [takeWhile_all_append _ _ '-' _ hrev (by simp)]
  try rw [List.reverse_reverse]

theorem idSeqVal_generateIssueId (c : String) (j : ℕ) :
    idSeqVal (generateIssueId c j) = j + 1 := by
  unfold generateIssueId
  rw [idSeqVal_concat _ _ (padStart3_no_dash (j + 1)),
    decValueList_padStart3, decValueList_jsNatToString]

theorem idSeqVal_generatePositiveId (c : String) (j : ℕ) :
    idSeqVal (generatePositiveId c j) = j + 1 := by
  unfold generatePositiveId
  rw [idSeqVal_concat _ _ (padStart3_no_dash (j + 1)),
    decValueList_padStart3, decValueList_jsNatToString]

theorem idSeqVal_isIssueId {i : JsonReportIssue} {k : ℕ} (h : IsIssueId i k) :
    idSeqVal i.id = k := by
  unfold IsIssueId at h
  rw [h, idSeqVal_concat _ _ (padStart3_no_dash k),
    decValueList_padStart3, decValueList_jsNatToString]

theorem idSeqVal_isPositiveId {p : JsonReportPositive} {k : ℕ}
    (h : IsPositiveId p k) : idSeqVal p.id = k := by
  unfold IsPositiveId at h
  rw [h, idSeqVal_concat _ _ (padStart3_no_dash k),
    decValueList_padStart3, decValueList_jsNatToString]

/-! ### C8: the classifier id invariant -/

theorem issuesIdInv_push (l : List JsonReportIssue) (x : JsonReportIssue)
    (hx : x.id = generateIssueId x.category l.length) (hl : IssuesIdInv l) :
    IssuesIdInv (l ++ [x]) := by
  obtain ⟨h1, h2⟩ := hl
  constructor
  · rw [List.map_append, h1]
    simp only [List.map_cons, List.map_nil]
    rw [hx, idSeqVal_generateIssueId]
    simp [List.length_append, List.range_succ]
  · intro i hi
    rcases List.mem_append.mp hi with hi | hi
    · exact h2 i hi
    · rw [List.mem_singleton] at hi
      subst hi
      exact ⟨l.length + 1, by omega, by unfold IsIssueId generateIssueId at *; rw [hx]⟩

theorem positivesIdInv_push (l : List JsonReportPositive)
    (x : JsonReportPositive)
    (hx : x.id = generatePositiveId x.category l.length)
    (hl : PositivesIdInv l) : PositivesIdInv (l ++ [x]) := by
  obtain ⟨h1, h2⟩ := hl
  constructor
  · rw [List.map_append, h1]
    simp only [List.map_cons, List.map_nil]
    rw [hx, idSeqVal_generatePositiveId]
    simp [List.length_append, List.range_succ]
  · intro p hp
    rcases List.mem_append.mp hp with hp | hp
    · exact h2 p hp
    · rw [List.mem_singleton] at hp
      subst hp
      exact ⟨l.length + 1, by omega,
        by unfold IsPositiveId generatePositiveId at *; rw [hx]⟩

theorem foldl_preserves {α β : Type} (P : α → Prop) (f : α → β → α)
    (hf : ∀ st b, P st → P (f st b)) :
    ∀ (l : List β) (st : α), P st → P (l.foldl f st) := by
  intro l
  induction l with
  | nil => intro st h; exact h
  | cons b t ih => intro st h; exact ih _ (hf _ _ h)

theorem processNote_inv (step : StepResult) (st : ClassifyState)
    (note : String) (h : ClassifyInv st) :
    ClassifyInv (processNote step st note) := by
  obtain ⟨h1, h2, h3, h4⟩ := h
  unfold processNote
  split
  · exact ⟨h1, h2, h3, h4⟩
  · dsimp only
    split
    · refine ⟨?_, h2, ?_, h4⟩
      · dsimp only
        rw [h1]
        simp [List.length_append]
      · exact issuesIdInv_push _ _ (by dsimp only; rw [h1]) h3
    · refine ⟨h1, ?_, h3, ?_⟩
      · dsimp only
        rw [h2]
        simp [List.length_append]
      · exact positivesIdInv_push _ _ (by dsimp only; rw [h2]) h4
    · exact ⟨h1, h2, h3, h4⟩

theorem processSuggestion_inv (step : StepResult) (st : ClassifyState)
    (suggestion : String) (h : ClassifyInv st) :
    ClassifyInv (processSuggestion step st suggestion) := by
  obtain ⟨h1, h2, h3, h4⟩ := h
  unfold processSuggestion
  split
  · exact ⟨h1, h2, h3, h4⟩
  · split
    · exact ⟨h1, h2, h3, h4⟩
    · refine ⟨?_, h2, ?_, h4⟩
      · dsimp only
        rw [h1]
        simp [List.length_append]
      · exact issuesIdInv_push _ _ (by dsimp only; rw [h1]) h3

theorem processSummaryIssue_inv (improvements : List String)
    (st : ClassifyState) (issue : String) (h : ClassifyInv st) :
    ClassifyInv (processSummaryIssue improvements st issue) := by
  obtain ⟨h1, h2, h3, h4⟩ := h
  unfold processSummaryIssue
  split
  · refine ⟨?_, h2, ?_, h4⟩
    · dsimp only
      rw [h1]
      simp [List.length_append]
    · exact issuesIdInv_push _ _ (by dsimp only; rw [h1]) h3
  · exact ⟨h1, h2, h3, h4⟩

theorem classifyReport_inv (report : SessionReport) :
    ClassifyInv (classifyReport report) := by
  have hempty : ClassifyInv emptyClassifyState := by
    refine ⟨rfl, rfl, ⟨rfl, ?_⟩, ⟨rfl, ?_⟩⟩ <;>
      exact fun i hi => absurd hi (List.not_mem_nil i)
  unfold classifyReport
  exact foldl_preserves ClassifyInv _
    (fun st b hb => processSummaryIssue_inv report.summary.improvements st b hb) _ _
    (foldl_preserves ClassifyInv _
      (fun st step hst => by
        unfold classifyStep
        exact foldl_preserves ClassifyInv _
          (fun s b hb => processSuggestion_inv step s b hb) _ _
          (foldl_preserves ClassifyInv _
            (fun s b hb => processNote_inv step s b hb) _ _ hst)) _ _ hempty)

theorem dedupIssues_fold_acc (l : List JsonReportIssue) :
    ∀ acc, ∃ s,
      l.foldl (fun acc issue =>
          if issueIsDuplicate acc issue then acc else acc ++ [issue]) acc =
        acc ++ s ∧ s.Sublist l := by
  induction l with
  | nil => intro acc; exact ⟨[], by simp, List.nil_sublist _⟩
  | cons x t ih =>
    intro acc
    simp only [List.foldl_cons]
    by_cases hdup : issueIsDuplicate acc x
    · rw [if_pos hdup]
      obtain ⟨s, hs, hsub⟩ := ih acc
      exact ⟨s, hs, hsub.cons x⟩
    · rw [if_neg hdup]
      obtain ⟨s, hs, hsub⟩ := ih (acc ++ [x])
      exact ⟨x :: s, by rw [hs]; simp, hsub.cons₂ x⟩

theorem dedupIssues_sublist (l : List JsonReportIssue) :
    (dedupIssues l).Sublist l := by
  obtain ⟨s, hs, hsub⟩ := dedupIssues_fold_acc l []
  unfold dedupIssues
  rw [hs]
  simpa using hsub

theorem dedupIssues_cons (x : JsonReportIssue) (t : List JsonReportIssue) :
    ∃ s, dedupIssues (x :: t) = x :: s := by
  unfold dedupIssues
  simp only [List.foldl_cons]
  have hx : issueIsDuplicate [] x = false := rfl
  rw [hx]
  simp only [Bool.false_eq_true, if_false, List.nil_append]
  obtain ⟨s, hs, -⟩ := dedupIssues_fold_acc t [x]
  exact ⟨s, by rw [hs]; simp⟩

theorem range_map_succ_nodup (n : ℕ) :
    ((List.range n).map (· + 1)).Nodup :=
  (List.nodup_range n).map (add_left_injective 1)

/-- C8. Within one `buildJsonReport` run, all issue ids are pairwise
distinct and all positive ids are pairwise distinct; every emitted id has
the shape `UX-<CAT3>-<NNN>` (issues) resp. `OK-<CAT3>-<NNN>` (positives)
with `CAT3` the uppercased category truncated to 3 characters and `NNN` the
zero-padded (width 3) decimal sequence number `k ≥ 1`; and the sequence
starts at 001: the first issue/positive carries sequence number 1
(`padStart3 (jsNatToString 1) = "001"`). -/
theorem buildJsonReport_ids (toISO : ℕ → String) (report : SessionReport)
    (videoPath : Option String) :
    ((buildJsonReport toISO report videoPath).issues.map (fun i => i.id)).Nodup ∧
    ((buildJsonReport toISO report videoPath).positives.map
      (fun p => p.id)).Nodup ∧
    (∀ i ∈ (buildJsonReport toISO report videoPath).issues,
        ∃ k, 1 ≤ k ∧ IsIssueId i k) ∧
    (∀ p ∈ (buildJsonReport toISO report videoPath).positives,
        ∃ k, 1 ≤ k ∧ IsPositiveId p k) ∧
    (∀ i ∈ (buildJsonReport toISO report videoPath).issues.head?,
        IsIssueId i 1) ∧
    (∀ p ∈ (buildJsonReport toISO report videoPath).positives.head?,
        IsPositiveId p 1) := by
  obtain ⟨-, -, ⟨hmap, hall⟩, ⟨pmap, pall⟩⟩ := classifyReport_inv report
  have hgen : ((classifyReport report).issues.map (fun i => i.id)).Nodup := by
    apply List.Nodup.of_map idSeqVal
    rw [List.map_map]
    have : (idSeqVal ∘ fun i => i.id) = fun i => idSeqVal (JsonReportIssue.id i) := rfl
    rw [this, hmap]
    exact range_map_succ_nodup _
  have pgen : ((classifyReport report).positives.map (fun p => p.id)).Nodup := by
    apply List.Nodup.of_map idSeqVal
    rw [List.map_map]
    have : (idSeqVal ∘ fun p => p.id) =
        fun p => idSeqVal (JsonReportPositive.id p) := rfl
    rw [this, pmap]
    exact range_map_succ_nodup _
  have hsubI : (buildJsonReport toISO report videoPath).issues.Sublist
      (classifyReport report).issues := by
    unfold buildJsonReport
    dsimp only
    exact (List.take_sublist _ _).trans (dedupIssues_sublist _)
  have hsubP : (buildJsonReport toISO report videoPath).positives.Sublist
      (classifyReport report).positives := by
    unfold buildJsonReport
    dsimp only
    exact List.take_sublist _ _
  refine ⟨?_, ?_, ?_, ?_, ?_, ?_⟩
  · exact (hsubI.map (fun i => i.id)).nodup hgen
  · exact (hsubP.map (fun p => p.id)).nodup pgen
  · intro i hi
    exact hall i (hsubI.subset hi)
  · intro p hp
    exact pall p (hsubP.subset hp)
  · intro i hi
    rcases hgenlist : (classifyReport report).issues with _ | ⟨g, tgen⟩
    · rw [show (buildJsonReport toISO report videoPath).issues =
          (dedupIssues (classifyReport report).issues).take 20 from rfl,
        hgenlist] at hi
      simp [dedupIssues] at hi
    · obtain ⟨s, hds⟩ := dedupIssues_cons g tgen
      have hhead : (buildJsonReport toISO report videoPath).issues.head? = some g := by
        rw [show (buildJsonReport toISO report videoPath).issues =
            (dedupIssues (classifyReport report).issues).take 20 from rfl,
          hgenlist, hds]
        rfl
      rw [hhead, Option.mem_def, Option.some.injEq] at hi
      subst hi
      obtain ⟨k, -, hk⟩ := hall g (by rw [hgenlist]; exact List.mem_cons_self _ _)
      have hφ : idSeqVal g.id = 1 := by
        rw [hgenlist] at hmap
        have hh := congrArg List.head? hmap
        simp [List.range_succ_eq_map] at hh
        exact hh
      have hk1 : k = 1 := by rw [← idSeqVal_isIssueId hk, hφ]
      rw [← hk1]
      exact hk
  · intro p hp
    rcases pgenlist : (classifyReport report).positives with _ | ⟨g, tgen⟩
    · rw [show (buildJsonReport toISO report videoPath).positives =
          (classifyReport report).positives.take 10 from rfl, pgenlist] at hp
      simp at hp
    · have hhead : (buildJsonReport toISO report videoPath).positives.head? =
          some g := by
        rw [show (buildJsonReport toISO report videoPath).positives =
            (classifyReport report).positives.take 10 from rfl, pgenlist]
        rfl
      rw [hhead, Option.mem_def, Option.some.injEq] at hp
      subst hp
      obtain ⟨k, -, hk⟩ := pall g (by rw [pgenlist]; exact List.mem_cons_self _ _)
      have hφ : idSeqVal g.id = 1 := by
        rw [pgenlist] at pmap
        have hh := congrArg List.head? pmap
        simp [List.range_succ_eq_map] at hh
        exact hh
      have hk1 : k = 1 := by rw [← idSeqVal_isPositiveId hk, hφ]
      rw [← hk1]
      exact hk

end UserAgent
